import Mathlib

/-!
# rv8 ELF header formatting (`src/riscv-elf-format.cc`)

A shallow embedding of the code-to-name translators, the two bitmask
translators, the record formatters and the report driver of
`riscv-elf-format.cc`, followed by theorems about them.

Conventions of the embedding:

* a C `int` is a Lean `Int`; `v & m` on `int` is `Int.land v m` (two's complement);
* an unsigned ELF field (`Elf64_Word`, `Elf64_Addr`, ...) is a `Nat`, and every
  narrowing the code performs on it is written out with an explicit `% 2 ^ w`;
* a `std::string` / `const char*` is a Lean `String`;
* `printf`-style formatting is interpreted from the format string of the source by
  `format_string`, for an LP64 host (`int` 32 bits, `long` and `long long` 64 bits,
  one 64-bit slot per variadic argument).
-/

namespace Rv8Elf

/-! ## Constants of `riscv-elf.h` -/

/-- Modelled from the spec: `riscv-elf.h` is absent; file class code of 32-bit objects. -/
def ELFCLASS32 : Int := 1
/-- Modelled from the spec: `riscv-elf.h` is absent; file class code of 64-bit objects. -/
def ELFCLASS64 : Int := 2
/-- Modelled from the spec: `riscv-elf.h` is absent; byte-order code, little-endian. -/
def ELFDATA2LSB : Int := 1
/-- Modelled from the spec: `riscv-elf.h` is absent; byte-order code, big-endian. -/
def ELFDATA2MSB : Int := 2

/-- Modelled from the spec: `riscv-elf.h` is absent; object type codes. -/
def ET_NONE : Int := 0
/-- Modelled from the spec: `riscv-elf.h` is absent; object type codes. -/
def ET_REL : Int := 1
/-- Modelled from the spec: `riscv-elf.h` is absent; object type codes. -/
def ET_EXEC : Int := 2
/-- Modelled from the spec: `riscv-elf.h` is absent; object type codes. -/
def ET_DYN : Int := 3
/-- Modelled from the spec: `riscv-elf.h` is absent; object type codes. -/
def ET_CORE : Int := 4

/-- Modelled from the spec: `riscv-elf.h` is absent; machine codes. -/
def EM_NONE : Int := 0
/-- Modelled from the spec: `riscv-elf.h` is absent; machine codes. -/
def EM_X86_64 : Int := 62
/-- Modelled from the spec: `riscv-elf.h` is absent; machine codes. -/
def EM_RISCV : Int := 243

/-- Modelled from the spec: `riscv-elf.h` is absent; segment type codes. -/
def PT_NULL : Int := 0
/-- Modelled from the spec: `riscv-elf.h` is absent; segment type codes. -/
def PT_LOAD : Int := 1
/-- Modelled from the spec: `riscv-elf.h` is absent; segment type codes. -/
def PT_DYNAMIC : Int := 2
/-- Modelled from the spec: `riscv-elf.h` is absent; segment type codes. -/
def PT_INTERP : Int := 3
/-- Modelled from the spec: `riscv-elf.h` is absent; segment type codes. -/
def PT_NOTE : Int := 4
/-- Modelled from the spec: `riscv-elf.h` is absent; segment type codes. -/
def PT_SHLIB : Int := 5
/-- Modelled from the spec: `riscv-elf.h` is absent; segment type codes. -/
def PT_PHDR : Int := 6

/-- Modelled from the spec: `riscv-elf.h` is absent; segment permission bit, executable. -/
def PF_X : Int := 1
/-- Modelled from the spec: `riscv-elf.h` is absent; segment permission bit, writable. -/
def PF_W : Int := 2
/-- Modelled from the spec: `riscv-elf.h` is absent; segment permission bit, readable. -/
def PF_R : Int := 4

/-- Modelled from the spec: `riscv-elf.h` is absent; section type codes. -/
def SHT_NULL : Int := 0
/-- Modelled from the spec: `riscv-elf.h` is absent; section type codes. -/
def SHT_PROGBITS : Int := 1
/-- Modelled from the spec: `riscv-elf.h` is absent; section type codes. -/
def SHT_SYMTAB : Int := 2
/-- Modelled from the spec: `riscv-elf.h` is absent; section type codes. -/
def SHT_STRTAB : Int := 3
/-- Modelled from the spec: `riscv-elf.h` is absent; section type codes. -/
def SHT_RELA : Int := 4
/-- Modelled from the spec: `riscv-elf.h` is absent; section type codes. -/
def SHT_HASH : Int := 5
/-- Modelled from the spec: `riscv-elf.h` is absent; section type codes. -/
def SHT_DYNAMIC : Int := 6
/-- Modelled from the spec: `riscv-elf.h` is absent; section type codes. -/
def SHT_NOTE : Int := 7
/-- Modelled from the spec: `riscv-elf.h` is absent; section type codes. -/
def SHT_NOBITS : Int := 8
/-- Modelled from the spec: `riscv-elf.h` is absent; section type codes. -/
def SHT_REL : Int := 9
/-- Modelled from the spec: `riscv-elf.h` is absent; section type codes. -/
def SHT_SHLIB : Int := 10
/-- Modelled from the spec: `riscv-elf.h` is absent; section type codes. -/
def SHT_DYNSYM : Int := 11

/-- Modelled from the spec: `riscv-elf.h` is absent; section flag bit, writable. -/
def SHF_WRITE : Int := 1
/-- Modelled from the spec: `riscv-elf.h` is absent; section flag bit, allocated. -/
def SHF_ALLOC : Int := 2
/-- Modelled from the spec: `riscv-elf.h` is absent; section flag bit, executable. -/
def SHF_EXECINSTR : Int := 4

/-- Modelled from the spec: `riscv-elf.h` is absent; symbol type codes. -/
def STT_NOTYPE : Int := 0
/-- Modelled from the spec: `riscv-elf.h` is absent; symbol type codes. -/
def STT_OBJECT : Int := 1
/-- Modelled from the spec: `riscv-elf.h` is absent; symbol type codes. -/
def STT_FUNC : Int := 2
/-- Modelled from the spec: `riscv-elf.h` is absent; symbol type codes. -/
def STT_SECTION : Int := 3
/-- Modelled from the spec: `riscv-elf.h` is absent; symbol type codes. -/
def STT_FILE : Int := 4

/-! ## Code-to-name translators -/

/-- `elf_ei_class_name` (lines 14-21): a `switch` with a `default`. -/
def elf_ei_class_name (v : Int) : String :=
  if v = ELFCLASS32 then "ELF32"
  else if v = ELFCLASS64 then "ELF64"
  else "unknown"

/-- `elf_ei_data_name` (lines 23-30). -/
def elf_ei_data_name (v : Int) : String :=
  if v = ELFDATA2LSB then "little-endian"
  else if v = ELFDATA2MSB then "big-endian"
  else "unknown"

/-- `elf_e_type_name` (lines 32-42). -/
def elf_e_type_name (v : Int) : String :=
  if v = ET_NONE then "none"
  else if v = ET_REL then "relocatable object"
  else if v = ET_EXEC then "executable"
  else if v = ET_DYN then "shared object"
  else if v = ET_CORE then "core"
  else "unknown"

/-- `elf_e_machine_name` (lines 44-52). -/
def elf_e_machine_name (v : Int) : String :=
  if v = EM_NONE then "none"
  else if v = EM_X86_64 then "x86-64"
  else if v = EM_RISCV then "RISC-V"
  else "unknown"

/-- `elf_p_type_name` (lines 54-66). -/
def elf_p_type_name (v : Int) : String :=
  if v = PT_NULL then "NULL"
  else if v = PT_LOAD then "LOAD"
  else if v = PT_DYNAMIC then "DYNAMIC"
  else if v = PT_INTERP then "INTERP"
  else if v = PT_NOTE then "NOTE"
  else if v = PT_SHLIB then "SHLIB"
  else if v = PT_PHDR then "PHDR"
  else "UNKNOWN"

/-- `elf_p_flags_name` (lines 68-75): three tests in source order, each appending to `s`. -/
def elf_p_flags_name (v : Int) : String :=
  let s := ""
  let s := if Int.land v PF_X ≠ 0 then s ++ "+X" else s
  let s := if Int.land v PF_W ≠ 0 then s ++ "+W" else s
  let s := if Int.land v PF_R ≠ 0 then s ++ "+R" else s
  s

/-- `elf_sh_type_name` (lines 77-94). -/
def elf_sh_type_name (v : Int) : String :=
  if v = SHT_NULL then "NULL"
  else if v = SHT_PROGBITS then "PROGBITS"
  else if v = SHT_SYMTAB then "SYMTAB"
  else if v = SHT_STRTAB then "STRTAB"
  else if v = SHT_RELA then "RELA"
  else if v = SHT_HASH then "HASH"
  else if v = SHT_DYNAMIC then "DYNAMIC"
  else if v = SHT_NOTE then "NOTE"
  else if v = SHT_NOBITS then "NOBITS"
  else if v = SHT_REL then "REL"
  else if v = SHT_SHLIB then "SHLIB"
  else if v = SHT_DYNSYM then "DYNSYM"
  else "UNKNOWN"

/-- `elf_sh_flags_name` (lines 96-103). -/
def elf_sh_flags_name (v : Int) : String :=
  let s := ""
  let s := if Int.land v SHF_WRITE ≠ 0 then s ++ "+WRITE" else s
  let s := if Int.land v SHF_ALLOC ≠ 0 then s ++ "+ALLOC" else s
  let s := if Int.land v SHF_EXECINSTR ≠ 0 then s ++ "+EXEC" else s
  s

/-- `elf_st_info_name` (lines 105-115). -/
def elf_st_info_name (v : Int) : String :=
  if v = STT_NOTYPE then "NOTYPE"
  else if v = STT_OBJECT then "OBJECT"
  else if v = STT_FUNC then "FUNC"
  else if v = STT_SECTION then "SECTION"
  else if v = STT_FILE then "FILE"
  else "UNKNOWN"

/-! ## `printf`-style formatting

`riscv-util.h` (`format_string`) is absent; it forwards its format and variadic
arguments to `vsnprintf`.  The interpreter below reads the format string of the
source character by character and renders the conversions this file uses
(`%s`, `%x`, `%u` with the `0` flag, a minimum field width and the `l` / `ll`
length modifiers) for an LP64 host. -/

/-- One variadic argument: a pointer to a NUL-terminated copy of a string, or an
unsigned integer value occupying one 64-bit argument slot. -/
inductive Arg where
  | str (s : String)
  | int (n : Nat)
  deriving DecidableEq, Repr

/-- The conversion letters used in this file. -/
inductive Conv where
  | s
  | x
  | u
  deriving DecidableEq, Repr

/-- A parsed conversion specification `%[0][width][l|ll](s|x|u)`. -/
structure Directive where
  zero : Bool
  width : Nat
  longs : Nat
  conv : Conv
  deriving DecidableEq, Repr

/-- A parsed format: literal characters and conversion specifications. -/
inductive Piece where
  | lit (c : Char)
  | dir (d : Directive)
  deriving DecidableEq, Repr

/-- Scanner state: in literal text, or inside a conversion specification after
`%` with the `0` flag, the width and the number of `l` modifiers read so far. -/
inductive Scan where
  | text
  | spec (zero : Bool) (width : Nat) (longs : Nat)
  deriving DecidableEq, Repr

/-- Scan a format string into pieces.  A character that cannot continue a
conversion specification ends the scan (the behaviour of such a format is
undefined in C; no format of this file contains one). -/
def parse_format : Scan → List Char → List Piece
  | _, [] => []
  | Scan.text, c :: cs =>
    if c = '%' then parse_format (Scan.spec false 0 0) cs
    else Piece.lit c :: parse_format Scan.text cs
  | Scan.spec z w l, c :: cs =>
    if c = '%' ∧ z = false ∧ w = 0 ∧ l = 0 then Piece.lit c :: parse_format Scan.text cs
    else if c = '0' ∧ w = 0 ∧ l = 0 then parse_format (Scan.spec true w l) cs
    else if c.isDigit ∧ l = 0 then parse_format (Scan.spec z (10 * w + (c.toNat - 48)) l) cs
    else if c = 'l' then parse_format (Scan.spec z w (l + 1)) cs
    else if c = 's' then Piece.dir ⟨z, w, l, Conv.s⟩ :: parse_format Scan.text cs
    else if c = 'x' then Piece.dir ⟨z, w, l, Conv.x⟩ :: parse_format Scan.text cs
    else if c = 'u' then Piece.dir ⟨z, w, l, Conv.u⟩ :: parse_format Scan.text cs
    else []

/-- The characters a `%s` conversion reads from a `c_str()` pointer: those before
the first NUL. -/
def c_str (s : String) : String :=
  String.mk (s.data.takeWhile (fun c => c != Char.ofNat 0))

/-- Right-justify `s` in a field of at least `w` characters, filling with `c`. -/
def pad_left (c : Char) (w : Nat) (s : String) : String :=
  String.mk (List.replicate (w - s.length) c) ++ s

/-- Bit width of the unsigned type an integer conversion reads: `unsigned int`
without a length modifier, `unsigned long` / `unsigned long long` with `l` / `ll`. -/
def uint_bits (longs : Nat) : Nat :=
  if longs = 0 then 32 else 64

/-- Render one conversion.  An integer conversion reads `uint_bits` bits of the
argument slot, so `%x` on a 64-bit value prints its low 32 bits.  A conversion
applied to an argument of the other kind produces nothing (undefined in C, not
used by this file). -/
def render (d : Directive) : Arg → String
  | Arg.str a =>
    match d.conv with
    | Conv.s => pad_left ' ' d.width (c_str a)
    | _ => ""
  | Arg.int n =>
    match d.conv with
    | Conv.x =>
      pad_left (if d.zero then '0' else ' ') d.width
        (String.mk (Nat.toDigits 16 (n % 2 ^ uint_bits d.longs)))
    | Conv.u =>
      pad_left (if d.zero then '0' else ' ') d.width
        (String.mk (Nat.toDigits 10 (n % 2 ^ uint_bits d.longs)))
    | Conv.s => ""

/-- Produce the text of a parsed format, consuming one argument per conversion. -/
def run_format : List Piece → List Arg → String
  | [], _ => ""
  | Piece.lit c :: ps, args => String.singleton c ++ run_format ps args
  | Piece.dir _ :: _, [] => ""
  | Piece.dir d :: ps, a :: args => render d a ++ run_format ps args

/-- Modelled from the spec: `format_string` of `riscv-util.h` is absent; the spec
treats it as the primitive that formats a string from a template and typed
arguments, i.e. `vsnprintf` into a `std::string`. -/
def format_string (fmt : String) (args : List Arg) : String :=
  run_format (parse_format Scan.text fmt.data) args

/-- The text `printf(fmt, args...)` appends to standard output. -/
def printf (fmt : String) (args : List Arg) : String :=
  run_format (parse_format Scan.text fmt.data) args

/-! ## Parsed structures -/

/-- Convert an unsigned field to `int`, as an implicit conversion at a call
`f(int v)` does: the low 32 bits, read as two's complement. -/
def to_int (n : Nat) : Int :=
  if n % 2 ^ 32 < 2 ^ 31 then ((n % 2 ^ 32 : Nat) : Int) else ((n % 2 ^ 32 : Nat) : Int) - 2 ^ 32

/-- Modelled from the spec: `riscv-elf.h` is absent; the file header fields this
file reads: object type code, machine code, entry virtual address. -/
structure Elf64_Ehdr where
  e_type : Nat
  e_machine : Nat
  e_entry : Nat
  deriving DecidableEq, Repr

/-- Modelled from the spec: `riscv-elf.h` is absent; a program header: 32-bit
type and flags, 64-bit addresses, sizes and alignment. -/
structure Elf64_Phdr where
  p_type : Nat
  p_flags : Nat
  p_vaddr : Nat
  p_paddr : Nat
  p_filesz : Nat
  p_memsz : Nat
  p_align : Nat
  deriving DecidableEq, Repr

/-- Modelled from the spec: `riscv-elf.h` is absent; a section header: type and
flags codes, 64-bit address, file offset and size. -/
structure Elf64_Shdr where
  sh_type : Nat
  sh_flags : Nat
  sh_addr : Nat
  sh_offset : Nat
  sh_size : Nat
  deriving DecidableEq, Repr

/-- Modelled from the spec: `riscv-elf-file.h` is absent; the parsed file: path,
class code, byte-order code, file header, section headers, program headers. -/
structure elf_file where
  filename : String
  ei_class : Int
  ei_data : Int
  ehdr : Elf64_Ehdr
  shdrs : List Elf64_Shdr
  phdrs : List Elf64_Phdr
  deriving DecidableEq, Repr

/-! ## Record formatters -/

/-- `elf_file_info` (lines 117-125). -/
def elf_file_info (elf : elf_file) : String :=
  format_string "%s: %s %s %s %s"
    [Arg.str elf.filename,
     Arg.str (elf_ei_class_name elf.ei_class),
     Arg.str (elf_ei_data_name elf.ei_data),
     Arg.str (elf_e_machine_name (to_int elf.ehdr.e_machine)),
     Arg.str (elf_e_type_name (to_int elf.ehdr.e_type))]

/-- `elf_phdr_info` (lines 127-137). -/
def elf_phdr_info (phdr : Elf64_Phdr) : String :=
  format_string "%10s %20s 0x%016x 0x%016x 0x%016x 0x%016x %lu"
    [Arg.str (elf_p_type_name (to_int phdr.p_type)),
     Arg.str (elf_p_flags_name (to_int phdr.p_flags)),
     Arg.int phdr.p_vaddr,
     Arg.int phdr.p_paddr,
     Arg.int phdr.p_filesz,
     Arg.int phdr.p_memsz,
     Arg.int phdr.p_align]

/-- `elf_shdr_info` (lines 139-147). -/
def elf_shdr_info (shdr : Elf64_Shdr) : String :=
  format_string "%10s %20s 0x%016x 0x%016x 0x%016x"
    [Arg.str (elf_sh_type_name (to_int shdr.sh_type)),
     Arg.str (elf_sh_flags_name (to_int shdr.sh_flags)),
     Arg.int shdr.sh_addr,
     Arg.int shdr.sh_offset,
     Arg.int shdr.sh_size]

/-! ## Report driver -/

/-- The loop of lines 154-156, `for (size_t i = 0; i < elf.shdrs.size(); i++)`,
started at index `i` with `fuel` iterations allowed; the text it prints. -/
def print_shdrs (shdrs : List Elf64_Shdr) : Nat → Nat → String
  | 0, _ => ""
  | fuel + 1, i =>
    if h : i < shdrs.length then
      printf "section header[%02lu] %s\n" [Arg.int i, Arg.str (elf_shdr_info (shdrs.get ⟨i, h⟩))]
        ++ print_shdrs shdrs fuel (i + 1)
    else ""

/-- The loop of lines 160-162 over the program headers. -/
def print_phdrs (phdrs : List Elf64_Phdr) : Nat → Nat → String
  | 0, _ => ""
  | fuel + 1, i =>
    if h : i < phdrs.length then
      printf "program header[%02lu] %s\n" [Arg.int i, Arg.str (elf_phdr_info (phdrs.get ⟨i, h⟩))]
        ++ print_phdrs phdrs fuel (i + 1)
    else ""

/-- `elf_print_info` (lines 149-165): the text written to standard output.  Each
loop runs with as many iterations allowed as its sequence has entries. -/
def elf_print_info (elf : elf_file) : String :=
  printf "%s\n\n" [Arg.str (elf_file_info elf)]
  ++ printf "                   %10s %20s %18s %18s %18s\n"
      [Arg.str "Type", Arg.str "Flags", Arg.str "Addr", Arg.str "Offset", Arg.str "Size"]
  ++ print_shdrs elf.shdrs elf.shdrs.length 0
  ++ printf "\n" []
  ++ printf "                   %10s %20s %18s %18s %18s %18s %s\n"
      [Arg.str "Type", Arg.str "Flags", Arg.str "VirtAddr", Arg.str "PhysAddr",
       Arg.str "FileSize", Arg.str "MemSize", Arg.str "Align"]
  ++ print_phdrs elf.phdrs elf.phdrs.length 0
  ++ printf "\n" []
  ++ printf "EntryAddr: 0x%016llx\n\n" [Arg.int elf.ehdr.e_entry]

/-! ## Report driver with its state written out

The driver takes the parsed file by non-`const` reference and writes to standard
output.  Here both are carried explicitly: every statement of `elf_print_info`
maps the pair of the parsed file and the text written so far to the next pair. -/

/-- What a call of the driver can read and write: the parsed file behind the
reference `elf` and the text written to standard output so far. -/
structure Process where
  elf : elf_file
  out : String
  deriving DecidableEq, Repr

/-- One `printf` call: append its text to standard output; the file is not touched. -/
def emit (text : String) (w : Process) : Process :=
  { w with out := w.out ++ text }

/-- The loop of lines 154-156 as a state transformer. -/
def print_shdrs_run : Nat → Nat → Process → Process
  | 0, _, w => w
  | fuel + 1, i, w =>
    if h : i < w.elf.shdrs.length then
      print_shdrs_run fuel (i + 1)
        (emit (printf "section header[%02lu] %s\n"
          [Arg.int i, Arg.str (elf_shdr_info (w.elf.shdrs.get ⟨i, h⟩))]) w)
    else w

/-- The loop of lines 160-162 as a state transformer. -/
def print_phdrs_run : Nat → Nat → Process → Process
  | 0, _, w => w
  | fuel + 1, i, w =>
    if h : i < w.elf.phdrs.length then
      print_phdrs_run fuel (i + 1)
        (emit (printf "program header[%02lu] %s\n"
          [Arg.int i, Arg.str (elf_phdr_info (w.elf.phdrs.get ⟨i, h⟩))]) w)
    else w

/-- `elf_print_info` (lines 149-165) as a state transformer, statement by statement. -/
def elf_print_info_run (w : Process) : Process :=
  let w := emit (printf "%s\n\n" [Arg.str (elf_file_info w.elf)]) w
  let w := emit (printf "                   %10s %20s %18s %18s %18s\n"
      [Arg.str "Type", Arg.str "Flags", Arg.str "Addr", Arg.str "Offset", Arg.str "Size"]) w
  let w := print_shdrs_run w.elf.shdrs.length 0 w
  let w := emit (printf "\n" []) w
  let w := emit (printf "                   %10s %20s %18s %18s %18s %18s %s\n"
      [Arg.str "Type", Arg.str "Flags", Arg.str "VirtAddr", Arg.str "PhysAddr",
       Arg.str "FileSize", Arg.str "MemSize", Arg.str "Align"]) w
  let w := print_phdrs_run w.elf.phdrs.length 0 w
  let w := emit (printf "\n" []) w
  emit (printf "EntryAddr: 0x%016llx\n\n" [Arg.int w.elf.ehdr.e_entry]) w

/-! ## Vocabulary of the statements -/

/-- A string without a NUL character: one that `c_str()` hands over unchanged. -/
def no_nul (s : String) : Prop :=
  ∀ c ∈ s.data, c ≠ Char.ofNat 0

/-- The text made of the given lines, each ended by a newline. -/
def unlines : List String → String
  | [] => ""
  | l :: ls => l ++ "\n" ++ unlines ls

/-- A zero-based index in decimal, zero-padded to at least two digits. -/
def index_label (i : Nat) : String :=
  if i < 10 then "0" ++ Nat.repr i else Nat.repr i

/-- The value of one lowercase hexadecimal digit (0 for any other character). -/
def hex_digit_value (c : Char) : Nat :=
  if '0' ≤ c ∧ c ≤ '9' then c.toNat - 48
  else if 'a' ≤ c ∧ c ≤ 'f' then c.toNat - 87
  else 0

/-- Whether a character is a lowercase hexadecimal digit. -/
def is_lower_hex (c : Char) : Bool :=
  ('0' ≤ c && c ≤ '9') || ('a' ≤ c && c ≤ 'f')

/-- The number a string of hexadecimal digits denotes, most significant digit first. -/
def hex_value (ds : List Char) : Nat :=
  ds.foldl (fun acc c => 16 * acc + hex_digit_value c) 0

/-- Sixteen zero-padded lowercase hexadecimal digits of `n`. -/
def hex16 (n : Nat) : String :=
  pad_left '0' 16 (String.mk (Nat.toDigits 16 n))

/-- The program header line as the specification words it: type right-aligned in
10 characters, flags right-aligned in 20, then the virtual address, physical
address, file size and memory size each as "0x" and 16 hexadecimal digits of the
full value, then the alignment in decimal. -/
def phdr_line_spec (ph : Elf64_Phdr) : String :=
  pad_left ' ' 10 (elf_p_type_name (to_int ph.p_type)) ++ " " ++
    pad_left ' ' 20 (elf_p_flags_name (to_int ph.p_flags)) ++
    " 0x" ++ hex16 ph.p_vaddr ++ " 0x" ++ hex16 ph.p_paddr ++
    " 0x" ++ hex16 ph.p_filesz ++ " 0x" ++ hex16 ph.p_memsz ++
    " " ++ Nat.repr ph.p_align

/-- The section header line as the specification words it: type right-aligned in
10 characters, flags right-aligned in 20, then the address, file offset and size
each as "0x" and 16 hexadecimal digits of the full value. -/
def shdr_line_spec (sh : Elf64_Shdr) : String :=
  pad_left ' ' 10 (elf_sh_type_name (to_int sh.sh_type)) ++ " " ++
    pad_left ' ' 20 (elf_sh_flags_name (to_int sh.sh_flags)) ++
    " 0x" ++ hex16 sh.sh_addr ++ " 0x" ++ hex16 sh.sh_offset ++
    " 0x" ++ hex16 sh.sh_size

/-- The index as `%02lu` prints it: the `unsigned long` value in decimal,
zero-padded to two characters. -/
def index_field (i : Nat) : String :=
  pad_left '0' 2 (String.mk (Nat.toDigits 10 (i % 2 ^ 64)))

/-- The column titles printed above the section headers (line 152). -/
def shdr_titles : String :=
  "                         Type                Flags               Addr             Offset               Size"

/-- The column titles printed above the program headers (line 158). -/
def phdr_titles : String :=
  "                         Type                Flags           VirtAddr           PhysAddr           FileSize            MemSize Align"

/-- A string without a newline character: one that stays on one line. -/
def no_newline (s : String) : Prop :=
  ∀ c ∈ s.data, c ≠ '\n'

/-! # Theorems -/

/-! ## Bit tests on `int` masks -/

/-- Testing one bit with `&`: `v & 2^k` is non-zero exactly when bit `k` of the
two's-complement integer `v` is set. -/
theorem land_two_pow_ne_zero (v : Int) (k : Nat) :
    Int.land v ((2 ^ k : Nat) : Int) ≠ 0 ↔ v.testBit k = true := by
  cases v with
  | ofNat m =>
    show ((m &&& 2 ^ k : Nat) : Int) ≠ 0 ↔ m.testBit k = true
    rw [Nat.and_two_pow]
    cases h : m.testBit k <;> simp
  | negSucc m =>
    show ((Nat.ldiff (2 ^ k) m : Nat) : Int) ≠ 0 ↔ (!m.testBit k) = true
    have h1 : Nat.ldiff (2 ^ k) m = (!m.testBit k).toNat * 2 ^ k := by
      apply Nat.eq_of_testBit_eq
      intro i
      rw [Nat.testBit_ldiff, Nat.testBit_two_pow]
      by_cases hik : k = i
      · subst hik
        cases h : m.testBit k <;> simp [Nat.testBit_two_pow]
      · cases h : m.testBit k <;> simp [hik, Nat.testBit_two_pow]
    rw [h1]
    cases h : m.testBit k <;> simp

theorem land_one_ne_zero (v : Int) : Int.land v 1 ≠ 0 ↔ v.testBit 0 = true :=
  land_two_pow_ne_zero v 0

theorem land_two_ne_zero (v : Int) : Int.land v 2 ≠ 0 ↔ v.testBit 1 = true :=
  land_two_pow_ne_zero v 1

theorem land_four_ne_zero (v : Int) : Int.land v 4 ≠ 0 ↔ v.testBit 2 = true :=
  land_two_pow_ne_zero v 2

/-- Masking with 7 keeps bits 0, 1 and 2. -/
theorem testBit_land_seven (v : Int) (k : Nat) (hk : k < 3) :
    (Int.land v 7).testBit k = v.testBit k := by
  rw [Int.testBit_land]
  have h7 : (7 : Int).testBit k = true := by
    interval_cases k <;> decide
  rw [h7, Bool.and_true]

/-- The permission string as a concatenation of three independent markers. -/
theorem elf_p_flags_name_eq (v : Int) :
    elf_p_flags_name v =
      (if v.testBit 0 = true then "+X" else "") ++
      (if v.testBit 1 = true then "+W" else "") ++
      (if v.testBit 2 = true then "+R" else "") := by
  have hx := land_one_ne_zero v
  have hw := land_two_ne_zero v
  have hr := land_four_ne_zero v
  unfold elf_p_flags_name
  simp only [PF_X, PF_W, PF_R]
  cases h0 : v.testBit 0 <;> cases h1 : v.testBit 1 <;> cases h2 : v.testBit 2 <;>
    simp only [h0, h1, h2] at hx hw hr <;> simp [hx, hw, hr]

/-- The section flag string as a concatenation of three independent markers. -/
theorem elf_sh_flags_name_eq (v : Int) :
    elf_sh_flags_name v =
      (if v.testBit 0 = true then "+WRITE" else "") ++
      (if v.testBit 1 = true then "+ALLOC" else "") ++
      (if v.testBit 2 = true then "+EXEC" else "") := by
  have hx := land_one_ne_zero v
  have hw := land_two_ne_zero v
  have hr := land_four_ne_zero v
  unfold elf_sh_flags_name
  simp only [SHF_WRITE, SHF_ALLOC, SHF_EXECINSTR]
  cases h0 : v.testBit 0 <;> cases h1 : v.testBit 1 <;> cases h2 : v.testBit 2 <;>
    simp only [h0, h1, h2] at hx hw hr <;> simp [hx, hw, hr]

/-! ## Bitmask translators (claims C1 to C3) -/

/-- C1: for every `int` mask `v`, `elf_p_flags_name v` is the concatenation, in
the fixed order executable, writable, readable, of "+X" if bit 0 (`PF_X` = 1) is
set, "+W" if bit 1 (`PF_W` = 2) is set and "+R" if bit 2 (`PF_R` = 4) is set; each
marker depends on its own bit only.  In particular a mask with the readable and
executable bits set and the writable bit clear gives "+X+R" and not "+R+X". -/
theorem elf_p_flags_name_order (v : Int) :
    elf_p_flags_name v =
        (if v.testBit 0 = true then "+X" else "") ++
        (if v.testBit 1 = true then "+W" else "") ++
        (if v.testBit 2 = true then "+R" else "") ∧
      (v.testBit 2 = true → v.testBit 0 = true → v.testBit 1 = false →
        elf_p_flags_name v = "+X+R" ∧ elf_p_flags_name v ≠ "+R+X") := by
  refine ⟨elf_p_flags_name_eq v, ?_⟩
  intro h2 h0 h1
  rw [elf_p_flags_name_eq, h0, h1, h2]
  decide

/-- Witness of C1 at the negative mask -11 (two's complement ...11110101: readable
and executable set, writable clear, every bit from bit 4 upwards set). -/
theorem elf_p_flags_name_order_witness :
    elf_p_flags_name (-11) = "+X+R" ∧ elf_p_flags_name (-11) ≠ "+R+X" :=
  (elf_p_flags_name_order (-11)).2 (by decide) (by decide) (by decide)

/-- C2: for every `int` mask `v`, `elf_sh_flags_name v` is the concatenation, in
the fixed order writable, allocated, executable, of "+WRITE" if bit 0
(`SHF_WRITE` = 1) is set, "+ALLOC" if bit 1 (`SHF_ALLOC` = 2) is set and "+EXEC"
if bit 2 (`SHF_EXECINSTR` = 4) is set; a mask with the allocated and executable
bits set and the writable bit clear gives "+ALLOC+EXEC". -/
theorem elf_sh_flags_name_order (v : Int) :
    elf_sh_flags_name v =
        (if v.testBit 0 = true then "+WRITE" else "") ++
        (if v.testBit 1 = true then "+ALLOC" else "") ++
        (if v.testBit 2 = true then "+EXEC" else "") ∧
      (v.testBit 1 = true → v.testBit 2 = true → v.testBit 0 = false →
        elf_sh_flags_name v = "+ALLOC+EXEC") := by
  refine ⟨elf_sh_flags_name_eq v, ?_⟩
  intro h1 h2 h0
  rw [elf_sh_flags_name_eq, h0, h1, h2]
  decide

/-- Witness of C2 at the mask 6 (allocated and executable). -/
theorem elf_sh_flags_name_order_witness : elf_sh_flags_name 6 = "+ALLOC+EXEC" :=
  (elf_sh_flags_name_order 6).2 (by decide) (by decide) (by decide)

/-- C3: unrecognised flag bits are ignored by both bitmask translators: for every
`int` mask `v`, negative or with high bits set, the result is that of `v AND 7`;
and a mask with none of the bits 0, 1, 2 set, in particular 0, gives the empty
string from both. -/
theorem flags_name_ignores_other_bits (v : Int) :
    elf_p_flags_name v = elf_p_flags_name (Int.land v 7) ∧
      elf_sh_flags_name v = elf_sh_flags_name (Int.land v 7) ∧
      (v.testBit 0 = false → v.testBit 1 = false → v.testBit 2 = false →
        elf_p_flags_name v = "" ∧ elf_sh_flags_name v = "") ∧
      elf_p_flags_name 0 = "" ∧ elf_sh_flags_name 0 = "" := by
  refine ⟨?_, ?_, ?_, by decide, by decide⟩
  · rw [elf_p_flags_name_eq v, elf_p_flags_name_eq (Int.land v 7),
      testBit_land_seven v 0 (by decide), testBit_land_seven v 1 (by decide),
      testBit_land_seven v 2 (by decide)]
  · rw [elf_sh_flags_name_eq v, elf_sh_flags_name_eq (Int.land v 7),
      testBit_land_seven v 0 (by decide), testBit_land_seven v 1 (by decide),
      testBit_land_seven v 2 (by decide)]
  · intro h0 h1 h2
    rw [elf_p_flags_name_eq, elf_sh_flags_name_eq, h0, h1, h2]
    decide

/-- Witness of C3 at the negative mask -8 (every bit set except bits 0, 1, 2). -/
theorem flags_name_ignores_other_bits_witness :
    elf_p_flags_name (-8) = "" ∧ elf_sh_flags_name (-8) = "" :=
  (flags_name_ignores_other_bits (-8)).2.2.1 (by decide) (by decide) (by decide)

/-! ## File class and byte order (claims C9, C10) -/

/-- C9: for every `int` `v`, `elf_ei_class_name v` is "ELF32" if `v` is
`ELFCLASS32` (1), "ELF64" if `v` is `ELFCLASS64` (2) and the sentinel "unknown"
for every other value, 0 and negative values included; the function is total. -/
theorem elf_ei_class_name_total (v : Int) :
    elf_ei_class_name v =
        (if v = 1 then "ELF32" else if v = 2 then "ELF64" else "unknown") ∧
      (elf_ei_class_name v = "ELF32" ↔ v = 1) ∧
      (elf_ei_class_name v = "ELF64" ↔ v = 2) ∧
      (elf_ei_class_name v = "unknown" ↔ v ≠ 1 ∧ v ≠ 2) ∧
      elf_ei_class_name 0 = "unknown" ∧ elf_ei_class_name (-1) = "unknown" := by
  have h12 : (1 : Int) ≠ 2 := by decide
  refine ⟨rfl, ?_, ?_, ?_, by decide, by decide⟩
  all_goals
    unfold elf_ei_class_name ELFCLASS32 ELFCLASS64
    by_cases h1 : v = 1
    · subst h1; simp
    · by_cases h2 : v = 2
      · subst h2; simp
      · simp [h1, h2]

/-- C10: for every `int` `v`, `elf_ei_data_name v` is "little-endian" if `v` is
`ELFDATA2LSB` (1), "big-endian" if `v` is `ELFDATA2MSB` (2) and "unknown"
otherwise; the two known labels differ from each other and from the sentinel, so
the result is the sentinel exactly when `v` is neither known code. -/
theorem elf_ei_data_name_total (v : Int) :
    elf_ei_data_name v =
        (if v = 1 then "little-endian" else if v = 2 then "big-endian" else "unknown") ∧
      elf_ei_data_name 1 ≠ elf_ei_data_name 2 ∧
      elf_ei_data_name 1 ≠ "unknown" ∧ elf_ei_data_name 2 ≠ "unknown" ∧
      (elf_ei_data_name v = "unknown" ↔ v ≠ 1 ∧ v ≠ 2) := by
  refine ⟨rfl, by decide, by decide, by decide, ?_⟩
  unfold elf_ei_data_name ELFDATA2LSB ELFDATA2MSB
  by_cases h1 : v = 1
  · subst h1; simp
  · by_cases h2 : v = 2
    · subst h2; simp
    · simp [h1, h2]

/-! ## Strings handed to `%s` -/

theorem c_str_eq_self (s : String) (h : no_nul s) : c_str s = s := by
  unfold c_str
  have : s.data.takeWhile (fun c => c != Char.ofNat 0) = s.data := by
    rw [List.takeWhile_eq_self_iff]
    intro c hc
    simpa using h c hc
  rw [this]

theorem no_nul_c_str (s : String) : no_nul (c_str s) := by
  intro c hc
  have := List.mem_takeWhile_imp hc
  simpa using this

theorem no_nul_append {a b : String} (ha : no_nul a) (hb : no_nul b) : no_nul (a ++ b) := by
  intro c hc
  rw [String.data_append, List.mem_append] at hc
  rcases hc with hc | hc
  · exact ha c hc
  · exact hb c hc

theorem no_nul_pad_left (c : Char) (w : Nat) (s : String) (hc : c ≠ Char.ofNat 0)
    (hs : no_nul s) : no_nul (pad_left c w s) := by
  unfold pad_left
  apply no_nul_append _ hs
  intro d hd
  have : d = c := List.eq_of_mem_replicate hd
  rw [this]; exact hc

theorem digitChar_ne_nul (m : Nat) : Nat.digitChar m ≠ Char.ofNat 0 := by
  by_cases h : m < 16
  · interval_cases m <;> decide
  · have hm : Nat.digitChar m = '*' := by
      unfold Nat.digitChar
      repeat rw [if_neg (by omega)]
    rw [hm]; decide

theorem mem_toDigitsCore (b : Nat) : ∀ (f n : Nat) (acc : List Char) (c : Char),
    c ∈ Nat.toDigitsCore b f n acc → c ∈ acc ∨ ∃ m, c = Nat.digitChar (m % b) := by
  intro f
  induction f with
  | zero => intro n acc c h; exact Or.inl h
  | succ f ih =>
    intro n acc c h
    simp only [Nat.toDigitsCore] at h
    split at h
    · rcases List.mem_cons.1 h with h | h
      · exact Or.inr ⟨_, h⟩
      · exact Or.inl h
    · rcases ih _ _ _ h with h | h
      · rcases List.mem_cons.1 h with h | h
        · exact Or.inr ⟨_, h⟩
        · exact Or.inl h
      · exact Or.inr h

theorem no_nul_toDigits (b n : Nat) : no_nul (String.mk (Nat.toDigits b n)) := by
  intro c hc
  rcases mem_toDigitsCore b _ _ _ c hc with h | ⟨m, rfl⟩
  · cases h
  · exact digitChar_ne_nul _

theorem no_nul_empty : no_nul "" := by
  intro c hc
  cases hc

theorem no_nul_render (d : Directive) (a : Arg) : no_nul (render d a) := by
  cases a with
  | str s =>
    unfold render
    cases d.conv
    · exact no_nul_pad_left _ _ _ (by decide) (no_nul_c_str s)
    · exact no_nul_empty
    · exact no_nul_empty
  | int n =>
    have hc : (if d.zero = true then '0' else ' ') ≠ Char.ofNat 0 := by
      split <;> decide
    unfold render
    cases d.conv
    · exact no_nul_empty
    · exact no_nul_pad_left _ _ _ hc (no_nul_toDigits _ _)
    · exact no_nul_pad_left _ _ _ hc (no_nul_toDigits _ _)

theorem no_nul_run_format : ∀ (ps : List Piece) (args : List Arg),
    (∀ c, Piece.lit c ∈ ps → c ≠ Char.ofNat 0) → no_nul (run_format ps args) := by
  intro ps
  induction ps with
  | nil => intro args _; exact no_nul_empty
  | cons p ps ih =>
    intro args h
    have hps : ∀ c, Piece.lit c ∈ ps → c ≠ Char.ofNat 0 :=
      fun c hc => h c (List.mem_cons_of_mem _ hc)
    cases p with
    | lit c =>
      unfold run_format
      apply no_nul_append _ (ih args hps)
      intro d hd
      have hdc : d = c := by simpa [String.singleton] using hd
      rw [hdc]
      exact h c (List.mem_cons_self _ _)
    | dir d =>
      cases args with
      | nil => exact no_nul_empty
      | cons a args =>
        unfold run_format
        exact no_nul_append (no_nul_render d a) (ih args hps)

theorem lit_mem_parse_format : ∀ (cs : List Char) (st : Scan) (c : Char),
    Piece.lit c ∈ parse_format st cs → c ∈ cs := by
  intro cs
  induction cs with
  | nil => intro st c h; cases st <;> simp [parse_format] at h
  | cons a cs ih =>
    intro st c h
    cases st with
    | text =>
      simp only [parse_format] at h
      split at h
      · exact List.mem_cons_of_mem _ (ih _ _ h)
      · rcases List.mem_cons.1 h with h | h
        · cases h; exact List.mem_cons_self _ _
        · exact List.mem_cons_of_mem _ (ih _ _ h)
    | spec z w l =>
      simp only [parse_format] at h
      split_ifs at h
      all_goals first
        | exact List.mem_cons_of_mem _ (ih _ _ h)
        | (rcases List.mem_cons.1 h with h | h
           · first
             | (cases h; exact List.mem_cons_self _ _)
             | cases h
           · exact List.mem_cons_of_mem _ (ih _ _ h))
        | cases h

/-- Text formatted from a NUL-free format string is NUL-free, whatever the arguments. -/
theorem no_nul_format_string (fmt : String) (args : List Arg) (h : no_nul fmt) :
    no_nul (format_string fmt args) := by
  unfold format_string
  apply no_nul_run_format
  intro c hc
  exact h c (lit_mem_parse_format _ _ _ hc)

theorem no_nul_elf_shdr_info (sh : Elf64_Shdr) : no_nul (elf_shdr_info sh) := by
  unfold elf_shdr_info
  exact no_nul_format_string _ _ (by unfold no_nul; decide)

theorem no_nul_elf_phdr_info (ph : Elf64_Phdr) : no_nul (elf_phdr_info ph) := by
  unfold elf_phdr_info
  exact no_nul_format_string _ _ (by unfold no_nul; decide)

theorem no_nul_elf_file_info (elf : elf_file) : no_nul (elf_file_info elf) := by
  unfold elf_file_info
  exact no_nul_format_string _ _ (by unfold no_nul; decide)

/-! ## The file identity line (claim C8) -/

theorem parse_file_info :
    parse_format Scan.text "%s: %s %s %s %s".data =
      [Piece.dir ⟨false, 0, 0, Conv.s⟩, Piece.lit ':', Piece.lit ' ',
       Piece.dir ⟨false, 0, 0, Conv.s⟩, Piece.lit ' ',
       Piece.dir ⟨false, 0, 0, Conv.s⟩, Piece.lit ' ',
       Piece.dir ⟨false, 0, 0, Conv.s⟩, Piece.lit ' ',
       Piece.dir ⟨false, 0, 0, Conv.s⟩] := by
  decide

theorem pad_left_zero (c : Char) (s : String) : pad_left c 0 s = s := by
  simp [pad_left]

theorem elf_file_info_eq (elf : elf_file) :
    elf_file_info elf =
      c_str elf.filename ++ ": " ++ c_str (elf_ei_class_name elf.ei_class) ++ " " ++
        c_str (elf_ei_data_name elf.ei_data) ++ " " ++
        c_str (elf_e_machine_name (to_int elf.ehdr.e_machine)) ++ " " ++
        c_str (elf_e_type_name (to_int elf.ehdr.e_type)) := by
  unfold elf_file_info format_string
  rw [parse_file_info]
  simp only [run_format, render, pad_left_zero, String.append_empty]
  apply String.ext
  simp only [String.data_append, List.append_assoc]
  rfl
theorem no_nul_elf_ei_class_name (v : Int) : no_nul (elf_ei_class_name v) := by
  unfold elf_ei_class_name no_nul
  split_ifs <;> decide

theorem no_nul_elf_ei_data_name (v : Int) : no_nul (elf_ei_data_name v) := by
  unfold elf_ei_data_name no_nul
  split_ifs <;> decide

theorem no_nul_elf_e_type_name (v : Int) : no_nul (elf_e_type_name v) := by
  unfold elf_e_type_name no_nul
  split_ifs <;> decide

theorem no_nul_elf_e_machine_name (v : Int) : no_nul (elf_e_machine_name v) := by
  unfold elf_e_machine_name no_nul
  split_ifs <;> decide

/-- C8: for every parsed file whose file name has no embedded NUL,
`elf_file_info` is the file name, ": ", then the class name, the byte-order
name, the machine name and the object type name, in that order, separated by
single spaces. -/
theorem elf_file_info_layout (elf : elf_file) (h : no_nul elf.filename) :
    elf_file_info elf =
      elf.filename ++ ": " ++ elf_ei_class_name elf.ei_class ++ " " ++
        elf_ei_data_name elf.ei_data ++ " " ++
        elf_e_machine_name (to_int elf.ehdr.e_machine) ++ " " ++
        elf_e_type_name (to_int elf.ehdr.e_type) := by
  rw [elf_file_info_eq, c_str_eq_self _ h, c_str_eq_self _ (no_nul_elf_ei_class_name _),
    c_str_eq_self _ (no_nul_elf_ei_data_name _), c_str_eq_self _ (no_nul_elf_e_machine_name _),
    c_str_eq_self _ (no_nul_elf_e_type_name _)]

/-- Witness of C8: a 64-bit little-endian RISC-V executable named "a.out". -/
theorem elf_file_info_layout_witness :
    no_nul "a.out" ∧
      elf_file_info ⟨"a.out", 2, 1, ⟨2, 243, 65536⟩, [], []⟩ =
        "a.out: ELF64 little-endian RISC-V executable" :=
  ⟨by unfold no_nul; decide,
   (elf_file_info_layout ⟨"a.out", 2, 1, ⟨2, 243, 65536⟩, [], []⟩
      (by unfold no_nul; decide)).trans (by decide)⟩

/-! ## Header lines (claims C4, C5) -/

theorem no_nul_ite (c : Prop) [Decidable c] (a b : String) (ha : no_nul a) (hb : no_nul b) :
    no_nul (if c then a else b) := by
  split <;> assumption

theorem no_nul_elf_p_type_name (v : Int) : no_nul (elf_p_type_name v) := by
  unfold elf_p_type_name
  repeat' apply no_nul_ite
  all_goals (unfold no_nul; decide)

theorem no_nul_elf_sh_type_name (v : Int) : no_nul (elf_sh_type_name v) := by
  unfold elf_sh_type_name
  repeat' apply no_nul_ite
  all_goals (unfold no_nul; decide)

theorem no_nul_elf_p_flags_name (v : Int) : no_nul (elf_p_flags_name v) := by
  rw [elf_p_flags_name_eq]
  unfold no_nul
  split_ifs <;> decide

theorem no_nul_elf_sh_flags_name (v : Int) : no_nul (elf_sh_flags_name v) := by
  rw [elf_sh_flags_name_eq]
  unfold no_nul
  split_ifs <;> decide

/-- What `elf_phdr_info` prints: the columns of the specification, with each of
the four `%016x` fields cut to its low 32 bits. -/
theorem elf_phdr_info_eq (ph : Elf64_Phdr) :
    elf_phdr_info ph =
      phdr_line_spec
        ⟨ph.p_type, ph.p_flags, ph.p_vaddr % 2 ^ 32, ph.p_paddr % 2 ^ 32,
          ph.p_filesz % 2 ^ 32, ph.p_memsz % 2 ^ 32, ph.p_align % 2 ^ 64⟩ := by
  have hp : parse_format Scan.text
      "%10s %20s 0x%016x 0x%016x 0x%016x 0x%016x %lu".data =
      [Piece.dir ⟨false, 10, 0, Conv.s⟩, Piece.lit ' ', Piece.dir ⟨false, 20, 0, Conv.s⟩,
       Piece.lit ' ', Piece.lit '0', Piece.lit 'x', Piece.dir ⟨true, 16, 0, Conv.x⟩,
       Piece.lit ' ', Piece.lit '0', Piece.lit 'x', Piece.dir ⟨true, 16, 0, Conv.x⟩,
       Piece.lit ' ', Piece.lit '0', Piece.lit 'x', Piece.dir ⟨true, 16, 0, Conv.x⟩,
       Piece.lit ' ', Piece.lit '0', Piece.lit 'x', Piece.dir ⟨true, 16, 0, Conv.x⟩,
       Piece.lit ' ', Piece.dir ⟨false, 0, 1, Conv.u⟩] := by
    decide
  have hb0 : uint_bits 0 = 32 := by decide
  have hb1 : uint_bits 1 = 64 := by decide
  unfold elf_phdr_info format_string phdr_line_spec hex16
  rw [hp]
  simp only [run_format, render, pad_left_zero, String.append_empty, hb0, hb1, if_true,
    c_str_eq_self _ (no_nul_elf_p_type_name _), c_str_eq_self _ (no_nul_elf_p_flags_name _)]
  apply String.ext
  simp only [String.data_append, List.append_assoc]
  rfl

/-- What `elf_shdr_info` prints: the columns of the specification, with each of
the three `%016x` fields cut to its low 32 bits. -/
theorem elf_shdr_info_eq (sh : Elf64_Shdr) :
    elf_shdr_info sh =
      shdr_line_spec
        ⟨sh.sh_type, sh.sh_flags, sh.sh_addr % 2 ^ 32, sh.sh_offset % 2 ^ 32,
          sh.sh_size % 2 ^ 32⟩ := by
  have hp : parse_format Scan.text "%10s %20s 0x%016x 0x%016x 0x%016x".data =
      [Piece.dir ⟨false, 10, 0, Conv.s⟩, Piece.lit ' ', Piece.dir ⟨false, 20, 0, Conv.s⟩,
       Piece.lit ' ', Piece.lit '0', Piece.lit 'x', Piece.dir ⟨true, 16, 0, Conv.x⟩,
       Piece.lit ' ', Piece.lit '0', Piece.lit 'x', Piece.dir ⟨true, 16, 0, Conv.x⟩,
       Piece.lit ' ', Piece.lit '0', Piece.lit 'x', Piece.dir ⟨true, 16, 0, Conv.x⟩] := by
    decide
  have hb0 : uint_bits 0 = 32 := by decide
  unfold elf_shdr_info format_string shdr_line_spec hex16
  rw [hp]
  simp only [run_format, render, String.append_empty, hb0, if_true,
    c_str_eq_self _ (no_nul_elf_sh_type_name _), c_str_eq_self _ (no_nul_elf_sh_flags_name _)]
  apply String.ext
  simp only [String.data_append, List.append_assoc]
  rfl

/-- C4: `elf_phdr_info` prints the columns of the claim with each of the four
`%016x` fields cut to its low 32 bits.  The example of the claim (all values
below 2^32) is printed as claimed; for a `LOAD` segment, readable and executable,
at virtual address 2^32 the code prints sixteen zeros where the claimed line has
`0000000100000000`. -/
theorem elf_phdr_info_drops_high_bits :
    (∀ ph : Elf64_Phdr, elf_phdr_info ph =
        phdr_line_spec
          ⟨ph.p_type, ph.p_flags, ph.p_vaddr % 2 ^ 32, ph.p_paddr % 2 ^ 32,
            ph.p_filesz % 2 ^ 32, ph.p_memsz % 2 ^ 32, ph.p_align % 2 ^ 64⟩) ∧
      elf_phdr_info ⟨1, 5, 0x1000, 0x1000, 0x200, 0x200, 0x1000⟩ =
        "      LOAD                 +X+R 0x0000000000001000 0x0000000000001000 0x0000000000000200 0x0000000000000200 4096" ∧
      elf_phdr_info ⟨1, 5, 0x100000000, 0x1000, 0x200, 0x200, 0x1000⟩ =
        "      LOAD                 +X+R 0x0000000000000000 0x0000000000001000 0x0000000000000200 0x0000000000000200 4096" ∧
      phdr_line_spec ⟨1, 5, 0x100000000, 0x1000, 0x200, 0x200, 0x1000⟩ =
        "      LOAD                 +X+R 0x0000000100000000 0x0000000000001000 0x0000000000000200 0x0000000000000200 4096" ∧
      elf_phdr_info ⟨1, 5, 0x100000000, 0x1000, 0x200, 0x200, 0x1000⟩ ≠
        phdr_line_spec ⟨1, 5, 0x100000000, 0x1000, 0x200, 0x200, 0x1000⟩ := by
  refine ⟨elf_phdr_info_eq, by decide, by decide, by decide, by decide⟩

/-- C5: `elf_shdr_info` prints the columns of the claim with each of the three
`%016x` fields cut to its low 32 bits.  The example of the claim (all values
below 2^32) is printed as claimed; for a `PROGBITS` section, allocated and
executable, of size 2^32 + 0x200 the code prints `0000000000000200` where the
claimed line has `0000000100000200`. -/
theorem elf_shdr_info_drops_high_bits :
    (∀ sh : Elf64_Shdr, elf_shdr_info sh =
        shdr_line_spec
          ⟨sh.sh_type, sh.sh_flags, sh.sh_addr % 2 ^ 32, sh.sh_offset % 2 ^ 32,
            sh.sh_size % 2 ^ 32⟩) ∧
      elf_shdr_info ⟨1, 6, 0x1000, 0x78, 0x200⟩ =
        "  PROGBITS          +ALLOC+EXEC 0x0000000000001000 0x0000000000000078 0x0000000000000200" ∧
      elf_shdr_info ⟨1, 6, 0x1000, 0x78, 0x100000200⟩ =
        "  PROGBITS          +ALLOC+EXEC 0x0000000000001000 0x0000000000000078 0x0000000000000200" ∧
      shdr_line_spec ⟨1, 6, 0x1000, 0x78, 0x100000200⟩ =
        "  PROGBITS          +ALLOC+EXEC 0x0000000000001000 0x0000000000000078 0x0000000100000200" ∧
      elf_shdr_info ⟨1, 6, 0x1000, 0x78, 0x100000200⟩ ≠
        shdr_line_spec ⟨1, 6, 0x1000, 0x78, 0x100000200⟩ := by
  refine ⟨elf_shdr_info_eq, by decide, by decide, by decide, by decide⟩

/-! ## Digits printed by the integer conversions -/

theorem toDigitsCore_append (b : Nat) : ∀ (f n : Nat) (acc : List Char),
    Nat.toDigitsCore b f n acc = Nat.toDigitsCore b f n [] ++ acc := by
  intro f
  induction f with
  | zero => intro n acc; rfl
  | succ f ih =>
    intro n acc
    simp only [Nat.toDigitsCore]
    split
    · rfl
    · rw [ih _ (Nat.digitChar (n % b) :: acc), ih _ [Nat.digitChar (n % b)]]
      simp

theorem hex_value_append_single (xs : List Char) (c : Char) :
    hex_value (xs ++ [c]) = 16 * hex_value xs + hex_digit_value c := by
  simp [hex_value, List.foldl_append]

theorem hex_digit_value_digitChar (m : Nat) (h : m < 16) :
    hex_digit_value (Nat.digitChar m) = m := by
  interval_cases m <;> decide

theorem is_lower_hex_digitChar (m : Nat) (h : m < 16) :
    is_lower_hex (Nat.digitChar m) = true := by
  interval_cases m <;> decide

theorem hex_value_toDigitsCore : ∀ (f n : Nat), n < f →
    hex_value (Nat.toDigitsCore 16 f n []) = n := by
  intro f
  induction f with
  | zero => intro n h; omega
  | succ f ih =>
    intro n h
    simp only [Nat.toDigitsCore]
    split
    · next h0 =>
      have hn : n % 16 = n := by omega
      have hd := hex_digit_value_digitChar (n % 16) (Nat.mod_lt _ (by decide))
      simp only [hex_value, List.foldl_cons, List.foldl_nil, hd]
      omega
    · next h0 =>
      rw [toDigitsCore_append, hex_value_append_single, ih (n / 16) (by omega),
        hex_digit_value_digitChar (n % 16) (Nat.mod_lt _ (by decide))]
      omega

theorem is_lower_hex_toDigits (n : Nat) : ∀ c ∈ Nat.toDigits 16 n, is_lower_hex c = true := by
  intro c hc
  rcases mem_toDigitsCore 16 _ _ _ c hc with h | ⟨m, rfl⟩
  · cases h
  · exact is_lower_hex_digitChar _ (Nat.mod_lt _ (by decide))

theorem hex_value_replicate_zero (k : Nat) (xs : List Char) :
    hex_value (List.replicate k '0' ++ xs) = hex_value xs := by
  induction k with
  | zero => simp
  | succ k ih =>
    have h0 : hex_digit_value '0' = 0 := by decide
    simp only [hex_value, List.replicate_succ, List.cons_append, List.foldl_cons, h0] at ih ⊢
    exact ih

/-- For a value below 2^64 the sixteen digits of `hex16` are lowercase hexadecimal
digits that denote the value itself. -/
theorem hex16_sound (n : Nat) (h : n < 2 ^ 64) :
    (hex16 n).data.length = 16 ∧ (∀ c ∈ (hex16 n).data, is_lower_hex c = true) ∧
      hex_value (hex16 n).data = n := by
  have hlen : (Nat.toDigits 16 n).length ≤ 16 :=
    Nat.toDigitsCore_length 16 (by decide) (n + 1) n 16 (by simpa using h) (by decide)
  have hdata : (hex16 n).data =
      List.replicate (16 - (Nat.toDigits 16 n).length) '0' ++ Nat.toDigits 16 n := rfl
  rw [hdata]
  refine ⟨?_, ?_, ?_⟩
  · simp only [List.length_append, List.length_replicate]
    omega
  · intro c hc
    rcases List.mem_append.1 hc with hc | hc
    · rw [List.eq_of_mem_replicate hc]; decide
    · exact is_lower_hex_toDigits n c hc
  · rw [hex_value_replicate_zero]
    exact hex_value_toDigitsCore (n + 1) n (by omega)

theorem toDigits_length_pos (b f n : Nat) : 0 < (Nat.toDigitsCore b (f + 1) n []).length := by
  simp only [Nat.toDigitsCore]
  split
  · simp
  · rw [toDigitsCore_append]; simp

/-- The index printed by `%02lu`: below ten a zero and one digit, from ten on the
decimal digits alone. -/
theorem pad_two_eq_index_label (i : Nat) :
    pad_left '0' 2 (String.mk (Nat.toDigits 10 i)) = index_label i := by
  unfold index_label
  by_cases h : i < 10
  · rw [if_pos h]
    interval_cases i <;> decide
  · rw [if_neg h]
    have hlen : 2 ≤ (Nat.toDigits 10 i).length := by
      unfold Nat.toDigits
      simp only [Nat.toDigitsCore]
      rw [if_neg (by omega), toDigitsCore_append]
      obtain ⟨j, hj⟩ : ∃ j, i = j + 1 := ⟨i - 1, by omega⟩
      have := toDigits_length_pos 10 j (i / 10)
      rw [hj] at this ⊢
      simp only [List.length_append, List.length_singleton]
      omega
    unfold pad_left
    have h0 : 2 - (String.mk (Nat.toDigits 10 i)).length = 0 := by
      rw [String.length_mk]; omega
    rw [h0]
    rfl

/-! ## The calls of `printf` in the report driver -/

theorem printf_identity (s : String) :
    printf "%s\n\n" [Arg.str s] = c_str s ++ "\n" ++ ("" ++ "\n") := by
  have hp : parse_format Scan.text "%s\n\n".data =
      [Piece.dir ⟨false, 0, 0, Conv.s⟩, Piece.lit '\n', Piece.lit '\n'] := by decide
  unfold printf
  rw [hp]
  simp only [run_format, render, pad_left_zero, String.append_empty]
  apply String.ext
  simp only [String.data_append, List.append_assoc]
  rfl

theorem printf_shdr_titles :
    printf "                   %10s %20s %18s %18s %18s\n"
      [Arg.str "Type", Arg.str "Flags", Arg.str "Addr", Arg.str "Offset", Arg.str "Size"] =
      shdr_titles ++ "\n" := by
  decide

theorem printf_phdr_titles :
    printf "                   %10s %20s %18s %18s %18s %18s %s\n"
      [Arg.str "Type", Arg.str "Flags", Arg.str "VirtAddr", Arg.str "PhysAddr",
       Arg.str "FileSize", Arg.str "MemSize", Arg.str "Align"] =
      phdr_titles ++ "\n" := by
  decide

theorem printf_newline : printf "\n" [] = "" ++ "\n" := by
  decide

theorem printf_shdr_row (i : Nat) (s : String) :
    printf "section header[%02lu] %s\n" [Arg.int i, Arg.str s] =
      "section header[" ++ index_field i ++ "] " ++ c_str s ++ "\n" := by
  have hp : parse_format Scan.text "section header[%02lu] %s\n".data =
      [Piece.lit 's', Piece.lit 'e', Piece.lit 'c', Piece.lit 't', Piece.lit 'i', Piece.lit 'o',
       Piece.lit 'n', Piece.lit ' ', Piece.lit 'h', Piece.lit 'e', Piece.lit 'a', Piece.lit 'd',
       Piece.lit 'e', Piece.lit 'r', Piece.lit '[', Piece.dir ⟨true, 2, 1, Conv.u⟩,
       Piece.lit ']', Piece.lit ' ', Piece.dir ⟨false, 0, 0, Conv.s⟩, Piece.lit '\n'] := by
    decide
  have hb : uint_bits 1 = 64 := by decide
  unfold printf index_field
  rw [hp]
  simp only [run_format, render, pad_left_zero, String.append_empty, hb, if_true]
  apply String.ext
  simp only [String.data_append, List.append_assoc]
  rfl

theorem printf_phdr_row (i : Nat) (s : String) :
    printf "program header[%02lu] %s\n" [Arg.int i, Arg.str s] =
      "program header[" ++ index_field i ++ "] " ++ c_str s ++ "\n" := by
  have hp : parse_format Scan.text "program header[%02lu] %s\n".data =
      [Piece.lit 'p', Piece.lit 'r', Piece.lit 'o', Piece.lit 'g', Piece.lit 'r', Piece.lit 'a',
       Piece.lit 'm', Piece.lit ' ', Piece.lit 'h', Piece.lit 'e', Piece.lit 'a', Piece.lit 'd',
       Piece.lit 'e', Piece.lit 'r', Piece.lit '[', Piece.dir ⟨true, 2, 1, Conv.u⟩,
       Piece.lit ']', Piece.lit ' ', Piece.dir ⟨false, 0, 0, Conv.s⟩, Piece.lit '\n'] := by
    decide
  have hb : uint_bits 1 = 64 := by decide
  unfold printf index_field
  rw [hp]
  simp only [run_format, render, pad_left_zero, String.append_empty, hb, if_true]
  apply String.ext
  simp only [String.data_append, List.append_assoc]
  rfl

theorem printf_entry (e : Nat) :
    printf "EntryAddr: 0x%016llx\n\n" [Arg.int e] =
      "EntryAddr: 0x" ++ hex16 (e % 2 ^ 64) ++ "\n" ++ ("" ++ "\n") := by
  have hp : parse_format Scan.text "EntryAddr: 0x%016llx\n\n".data =
      [Piece.lit 'E', Piece.lit 'n', Piece.lit 't', Piece.lit 'r', Piece.lit 'y', Piece.lit 'A',
       Piece.lit 'd', Piece.lit 'd', Piece.lit 'r', Piece.lit ':', Piece.lit ' ', Piece.lit '0',
       Piece.lit 'x', Piece.dir ⟨true, 16, 2, Conv.x⟩, Piece.lit '\n', Piece.lit '\n'] := by
    decide
  have hb : uint_bits 2 = 64 := by decide
  unfold printf hex16
  rw [hp]
  simp only [run_format, render, String.append_empty, hb, if_true]
  apply String.ext
  simp only [String.data_append, List.append_assoc]
  rfl

/-! ## The two loops of the report driver -/

theorem unlines_append (xs ys : List String) :
    unlines (xs ++ ys) = unlines xs ++ unlines ys := by
  induction xs with
  | nil => simp [unlines]
  | cons x xs ih =>
    rw [List.cons_append]
    simp only [unlines]
    rw [ih]
    simp only [String.append_assoc]

/-- With as many iterations allowed as entries remain, the section loop started at
index `i` prints one row per remaining entry, in sequence order. -/
theorem print_shdrs_eq (shdrs : List Elf64_Shdr) : ∀ (fuel i : Nat) (h : i + fuel = shdrs.length),
    print_shdrs shdrs fuel i =
      unlines (List.ofFn (fun j : Fin fuel =>
        "section header[" ++ index_field (i + j.val) ++ "] " ++
          elf_shdr_info (shdrs.get ⟨i + j.val, by omega⟩))) := by
  intro fuel
  induction fuel with
  | zero => intro i h; simp [print_shdrs, unlines]
  | succ fuel ih =>
    intro i h
    have hlt : i < shdrs.length := by omega
    have hget : ∀ (k k2 : Nat) (hk : k < shdrs.length) (hk2 : k2 < shdrs.length),
        k = k2 → shdrs.get ⟨k, hk⟩ = shdrs.get ⟨k2, hk2⟩ := by
      intro k k2 hk hk2 e
      subst e
      rfl
    rw [List.ofFn_succ]
    simp only [print_shdrs, dif_pos hlt, unlines, printf_shdr_row,
      c_str_eq_self _ (no_nul_elf_shdr_info _)]
    rw [ih (i + 1) (by omega)]
    have hrest : (fun j : Fin fuel =>
          "section header[" ++ index_field (i + 1 + j.val) ++ "] " ++
            elf_shdr_info (shdrs.get ⟨i + 1 + j.val, by omega⟩)) =
        (fun j : Fin fuel =>
          "section header[" ++ index_field (i + (Fin.succ j).val) ++ "] " ++
            elf_shdr_info (shdrs.get ⟨i + (Fin.succ j).val, by simp only [Fin.val_succ]; omega⟩)) := by
      funext j
      have e : i + 1 + j.val = i + (Fin.succ j).val := by simp only [Fin.val_succ]; omega
      have e2 : index_field (i + 1 + j.val) = index_field (i + (Fin.succ j).val) :=
        congrArg index_field e
      rw [hget _ _ _ (by simp only [Fin.val_succ]; omega) e, e2]
    rw [hrest]
    rfl

/-- The program loop likewise prints one row per remaining entry, in sequence order. -/
theorem print_phdrs_eq (phdrs : List Elf64_Phdr) : ∀ (fuel i : Nat) (h : i + fuel = phdrs.length),
    print_phdrs phdrs fuel i =
      unlines (List.ofFn (fun j : Fin fuel =>
        "program header[" ++ index_field (i + j.val) ++ "] " ++
          elf_phdr_info (phdrs.get ⟨i + j.val, by omega⟩))) := by
  intro fuel
  induction fuel with
  | zero => intro i h; simp [print_phdrs, unlines]
  | succ fuel ih =>
    intro i h
    have hlt : i < phdrs.length := by omega
    have hget : ∀ (k k2 : Nat) (hk : k < phdrs.length) (hk2 : k2 < phdrs.length),
        k = k2 → phdrs.get ⟨k, hk⟩ = phdrs.get ⟨k2, hk2⟩ := by
      intro k k2 hk hk2 e
      subst e
      rfl
    rw [List.ofFn_succ]
    simp only [print_phdrs, dif_pos hlt, unlines, printf_phdr_row,
      c_str_eq_self _ (no_nul_elf_phdr_info _)]
    rw [ih (i + 1) (by omega)]
    have hrest : (fun j : Fin fuel =>
          "program header[" ++ index_field (i + 1 + j.val) ++ "] " ++
            elf_phdr_info (phdrs.get ⟨i + 1 + j.val, by omega⟩)) =
        (fun j : Fin fuel =>
          "program header[" ++ index_field (i + (Fin.succ j).val) ++ "] " ++
            elf_phdr_info (phdrs.get ⟨i + (Fin.succ j).val, by simp only [Fin.val_succ]; omega⟩)) := by
      funext j
      have e : i + 1 + j.val = i + (Fin.succ j).val := by simp only [Fin.val_succ]; omega
      have e2 : index_field (i + 1 + j.val) = index_field (i + (Fin.succ j).val) :=
        congrArg index_field e
      rw [hget _ _ _ (by simp only [Fin.val_succ]; omega) e, e2]
    rw [hrest]
    rfl

theorem print_shdrs_all (shdrs : List Elf64_Shdr) :
    print_shdrs shdrs shdrs.length 0 =
      unlines (List.ofFn (fun j : Fin shdrs.length =>
        "section header[" ++ index_field j.val ++ "] " ++ elf_shdr_info (shdrs.get j))) := by
  rw [print_shdrs_eq shdrs shdrs.length 0 (by omega)]
  congr 2
  funext j
  have h0 : 0 + j.val = j.val := Nat.zero_add _
  have hj : (⟨0 + j.val, by omega⟩ : Fin shdrs.length) = j := Fin.ext h0
  rw [hj, h0]

theorem print_phdrs_all (phdrs : List Elf64_Phdr) :
    print_phdrs phdrs phdrs.length 0 =
      unlines (List.ofFn (fun j : Fin phdrs.length =>
        "program header[" ++ index_field j.val ++ "] " ++ elf_phdr_info (phdrs.get j))) := by
  rw [print_phdrs_eq phdrs phdrs.length 0 (by omega)]
  congr 2
  funext j
  have h0 : 0 + j.val = j.val := Nat.zero_add _
  have hj : (⟨0 + j.val, by omega⟩ : Fin phdrs.length) = j := Fin.ext h0
  rw [hj, h0]

/-- The whole report as a list of lines, with the index fields as `%02lu` prints them. -/
theorem elf_print_info_lines (elf : elf_file) :
    elf_print_info elf =
      unlines
        ([elf_file_info elf, "", shdr_titles] ++
          List.ofFn (fun i : Fin elf.shdrs.length =>
            "section header[" ++ index_field i.val ++ "] " ++ elf_shdr_info (elf.shdrs.get i)) ++
          ["", phdr_titles] ++
          List.ofFn (fun j : Fin elf.phdrs.length =>
            "program header[" ++ index_field j.val ++ "] " ++ elf_phdr_info (elf.phdrs.get j)) ++
          ["", "EntryAddr: 0x" ++ hex16 (elf.ehdr.e_entry % 2 ^ 64), ""]) := by
  unfold elf_print_info
  rw [printf_identity, printf_shdr_titles, printf_phdr_titles, printf_newline, printf_entry,
    print_shdrs_all, print_phdrs_all, c_str_eq_self _ (no_nul_elf_file_info elf)]
  rw [unlines_append, unlines_append, unlines_append, unlines_append]
  simp only [unlines, String.append_assoc, String.append_empty]

theorem index_field_eq_index_label (i : Nat) (h : i < 2 ^ 64) :
    index_field i = index_label i := by
  unfold index_field
  rw [Nat.mod_eq_of_lt h, pad_two_eq_index_label]

/-! ## The report (claims C6, C7) -/

set_option maxRecDepth 100000

/-- C6: for every parsed file (its two header sequences, being vectors, have at
most 2^64 entries) the text written by `elf_print_info` is, in this order: the
file identity line, an empty line, the section column titles, one line
"section header[NN] " + `elf_shdr_info` per section header in sequence order with
`NN` the zero-based index zero-padded to at least two digits, an empty line, the
program column titles, one line "program header[NN] " + `elf_phdr_info` per
program header in sequence order, an empty line, the entry address line and an
empty line; every header gives exactly one line, whatever its type code. -/
theorem elf_print_info_layout (elf : elf_file)
    (hs : elf.shdrs.length ≤ 2 ^ 64) (hp : elf.phdrs.length ≤ 2 ^ 64) :
    elf_print_info elf =
      unlines
        ([elf_file_info elf, "", shdr_titles] ++
          List.ofFn (fun i : Fin elf.shdrs.length =>
            "section header[" ++ index_label i.val ++ "] " ++ elf_shdr_info (elf.shdrs.get i)) ++
          ["", phdr_titles] ++
          List.ofFn (fun j : Fin elf.phdrs.length =>
            "program header[" ++ index_label j.val ++ "] " ++ elf_phdr_info (elf.phdrs.get j)) ++
          ["", "EntryAddr: 0x" ++ hex16 (elf.ehdr.e_entry % 2 ^ 64), ""]) := by
  rw [elf_print_info_lines]
  have hsec : (fun i : Fin elf.shdrs.length =>
        "section header[" ++ index_field i.val ++ "] " ++ elf_shdr_info (elf.shdrs.get i)) =
      (fun i : Fin elf.shdrs.length =>
        "section header[" ++ index_label i.val ++ "] " ++ elf_shdr_info (elf.shdrs.get i)) := by
    funext i
    rw [index_field_eq_index_label i.val (by have := i.isLt; omega)]
  have hprog : (fun j : Fin elf.phdrs.length =>
        "program header[" ++ index_field j.val ++ "] " ++ elf_phdr_info (elf.phdrs.get j)) =
      (fun j : Fin elf.phdrs.length =>
        "program header[" ++ index_label j.val ++ "] " ++ elf_phdr_info (elf.phdrs.get j)) := by
    funext j
    rw [index_field_eq_index_label j.val (by have := j.isLt; omega)]
  rw [hsec, hprog]

/-- Witness of C6: a file with two section headers, the second of an unrecognised
type code, and one program header. -/
theorem elf_print_info_layout_witness :
    elf_print_info ⟨"a.out", 2, 1, ⟨2, 243, 0x10000⟩,
        [⟨1, 6, 0x1000, 0x78, 0x200⟩, ⟨0x70000003, 0, 0, 0x278, 0x40⟩],
        [⟨1, 5, 0x1000, 0x1000, 0x200, 0x200, 0x1000⟩]⟩ =
      "a.out: ELF64 little-endian RISC-V executable\n\n                         Type                Flags               Addr             Offset               Size\nsection header[00]   PROGBITS          +ALLOC+EXEC 0x0000000000001000 0x0000000000000078 0x0000000000000200\nsection header[01]    UNKNOWN                      0x0000000000000000 0x0000000000000278 0x0000000000000040\n\n                         Type                Flags           VirtAddr           PhysAddr           FileSize            MemSize Align\nprogram header[00]       LOAD                 +X+R 0x0000000000001000 0x0000000000001000 0x0000000000000200 0x0000000000000200 4096\n\nEntryAddr: 0x0000000000010000\n\n" :=
  (elf_print_info_layout _ (by decide) (by decide)).trans (by decide)

/-- C7: for every 64-bit entry address `e`, the report ends with an empty line,
the line "EntryAddr: 0x" followed by sixteen lowercase hexadecimal digits whose
value is the whole of `e`, and an empty line. -/
theorem elf_print_info_entry_line (elf : elf_file) (h : elf.ehdr.e_entry < 2 ^ 64) :
    (∃ pre : List String, elf_print_info elf =
        unlines (pre ++ ["", "EntryAddr: 0x" ++ hex16 elf.ehdr.e_entry, ""])) ∧
      (hex16 elf.ehdr.e_entry).data.length = 16 ∧
      (∀ c ∈ (hex16 elf.ehdr.e_entry).data, is_lower_hex c = true) ∧
      hex_value (hex16 elf.ehdr.e_entry).data = elf.ehdr.e_entry := by
  refine ⟨⟨[elf_file_info elf, "", shdr_titles] ++
      List.ofFn (fun i : Fin elf.shdrs.length =>
        "section header[" ++ index_field i.val ++ "] " ++ elf_shdr_info (elf.shdrs.get i)) ++
      ["", phdr_titles] ++
      List.ofFn (fun j : Fin elf.phdrs.length =>
        "program header[" ++ index_field j.val ++ "] " ++ elf_phdr_info (elf.phdrs.get j)), ?_⟩,
    hex16_sound _ h⟩
  rw [elf_print_info_lines, Nat.mod_eq_of_lt h]

/-- Witness of C7: the entry address 0x123456789abcdef0, above 2^32. -/
theorem elf_print_info_entry_line_witness :
    (0x123456789abcdef0 < 2 ^ 64) ∧
      ∃ pre : List String,
        elf_print_info ⟨"a.out", 2, 1, ⟨2, 243, 0x123456789abcdef0⟩, [], []⟩ =
          unlines (pre ++ ["", "EntryAddr: 0x123456789abcdef0", ""]) :=
  ⟨by decide,
   (elf_print_info_entry_line ⟨"a.out", 2, 1, ⟨2, 243, 0x123456789abcdef0⟩, [], []⟩
      (by decide)).1⟩

/-! ## Type, machine and symbol codes (claims C11 to C15, C20) -/

/-- A type code of 2^31 or more, taken as `int`, is negative. -/
theorem to_int_neg (n : Nat) (h1 : 2 ^ 31 ≤ n) (h2 : n < 2 ^ 32) : to_int n < 0 := by
  unfold to_int
  have hm : n % 2 ^ 32 = n := Nat.mod_eq_of_lt h2
  rw [hm, if_neg (by omega)]
  have : ((n : Nat) : Int) < 2 ^ 32 := by exact_mod_cast h2
  omega

/-- C11: for every `int` `v`, `elf_p_type_name v` is "NULL", "LOAD", "DYNAMIC",
"INTERP", "NOTE", "SHLIB", "PHDR" for `v` = 0, ..., 6 and "UNKNOWN" for every
other value; it is a total function, and a 32-bit type code of 2^31 or more,
which reaches it as a negative `int`, gives "UNKNOWN". -/
theorem elf_p_type_name_total (v : Int) (n : Nat) :
    elf_p_type_name v =
        (if v = 0 then "NULL" else if v = 1 then "LOAD" else if v = 2 then "DYNAMIC"
         else if v = 3 then "INTERP" else if v = 4 then "NOTE" else if v = 5 then "SHLIB"
         else if v = 6 then "PHDR" else "UNKNOWN") ∧
      (elf_p_type_name v = "UNKNOWN" ↔ v < 0 ∨ 6 < v) ∧
      (2 ^ 31 ≤ n → n < 2 ^ 32 → elf_p_type_name (to_int n) = "UNKNOWN") := by
  have key : ∀ w : Int, elf_p_type_name w = "UNKNOWN" ↔ w < 0 ∨ 6 < w := by
    intro w
    unfold elf_p_type_name PT_NULL PT_LOAD PT_DYNAMIC PT_INTERP PT_NOTE PT_SHLIB PT_PHDR
    by_cases h : 0 ≤ w ∧ w ≤ 6
    · obtain ⟨h0, h6⟩ := h
      interval_cases w <;> decide
    · have hw : w < 0 ∨ 6 < w := by omega
      rw [if_neg (by omega), if_neg (by omega), if_neg (by omega), if_neg (by omega),
        if_neg (by omega), if_neg (by omega), if_neg (by omega)]
      simp [hw]
  refine ⟨rfl, key v, ?_⟩
  intro h1 h2
  exact (key _).2 (Or.inl (to_int_neg n h1 h2))

/-- Witness of C11: the type code 0xffffffff. -/
theorem elf_p_type_name_total_witness : elf_p_type_name (to_int 0xffffffff) = "UNKNOWN" :=
  (elf_p_type_name_total 0 0xffffffff).2.2 (by decide) (by decide)

/-- C12: for every `int` `v`, `elf_sh_type_name v` is "NULL", "PROGBITS",
"SYMTAB", "STRTAB", "RELA", "HASH", "DYNAMIC", "NOTE", "NOBITS", "REL", "SHLIB",
"DYNSYM" for `v` = 0, ..., 11 and "UNKNOWN" for every other value; it is a total
function. -/
theorem elf_sh_type_name_total (v : Int) :
    elf_sh_type_name v =
        (if v = 0 then "NULL" else if v = 1 then "PROGBITS" else if v = 2 then "SYMTAB"
         else if v = 3 then "STRTAB" else if v = 4 then "RELA" else if v = 5 then "HASH"
         else if v = 6 then "DYNAMIC" else if v = 7 then "NOTE" else if v = 8 then "NOBITS"
         else if v = 9 then "REL" else if v = 10 then "SHLIB" else if v = 11 then "DYNSYM"
         else "UNKNOWN") ∧
      (elf_sh_type_name v = "UNKNOWN" ↔ v < 0 ∨ 11 < v) := by
  refine ⟨rfl, ?_⟩
  unfold elf_sh_type_name SHT_NULL SHT_PROGBITS SHT_SYMTAB SHT_STRTAB SHT_RELA SHT_HASH
    SHT_DYNAMIC SHT_NOTE SHT_NOBITS SHT_REL SHT_SHLIB SHT_DYNSYM
  by_cases h : 0 ≤ v ∧ v ≤ 11
  · obtain ⟨h0, h11⟩ := h
    interval_cases v <;> decide
  · have hv : v < 0 ∨ 11 < v := by omega
    rw [if_neg (by omega), if_neg (by omega), if_neg (by omega), if_neg (by omega),
      if_neg (by omega), if_neg (by omega), if_neg (by omega), if_neg (by omega),
      if_neg (by omega), if_neg (by omega), if_neg (by omega), if_neg (by omega)]
    simp [hv]

/-- C13: for every `int` `v`, `elf_e_machine_name v` is "none" for `EM_NONE` (0),
"x86-64" for `EM_X86_64` (62), "RISC-V" for `EM_RISCV` (243) and "unknown" for
every other code; it is a total function. -/
theorem elf_e_machine_name_total (v : Int) :
    elf_e_machine_name v =
        (if v = 0 then "none" else if v = 62 then "x86-64" else if v = 243 then "RISC-V"
         else "unknown") ∧
      (elf_e_machine_name v = "unknown" ↔ v ≠ 0 ∧ v ≠ 62 ∧ v ≠ 243) ∧
      elf_e_machine_name 3 = "unknown" ∧ elf_e_machine_name 183 = "unknown" := by
  refine ⟨rfl, ?_, by decide, by decide⟩
  unfold elf_e_machine_name EM_NONE EM_X86_64 EM_RISCV
  by_cases h0 : v = 0
  · subst h0; decide
  · by_cases h1 : v = 62
    · subst h1; decide
    · by_cases h2 : v = 243
      · subst h2; decide
      · simp [h0, h1, h2]

/-- C14: for every `int` `v`, `elf_e_type_name v` is "none", "relocatable object",
"executable", "shared object", "core" for `v` = 0, ..., 4 and "unknown" for every
other value. -/
theorem elf_e_type_name_total (v : Int) :
    elf_e_type_name v =
        (if v = 0 then "none" else if v = 1 then "relocatable object"
         else if v = 2 then "executable" else if v = 3 then "shared object"
         else if v = 4 then "core" else "unknown") ∧
      (elf_e_type_name v = "unknown" ↔ v < 0 ∨ 4 < v) := by
  refine ⟨rfl, ?_⟩
  unfold elf_e_type_name ET_NONE ET_REL ET_EXEC ET_DYN ET_CORE
  by_cases h : 0 ≤ v ∧ v ≤ 4
  · obtain ⟨h0, h4⟩ := h
    interval_cases v <;> decide
  · have hv : v < 0 ∨ 4 < v := by omega
    rw [if_neg (by omega), if_neg (by omega), if_neg (by omega), if_neg (by omega),
      if_neg (by omega)]
    simp [hv]

/-- The sentinel of `elf_st_info_name` is returned exactly outside 0, ..., 4. -/
theorem elf_st_info_name_unknown_iff (v : Int) :
    elf_st_info_name v = "UNKNOWN" ↔ v < 0 ∨ 4 < v := by
  unfold elf_st_info_name STT_NOTYPE STT_OBJECT STT_FUNC STT_SECTION STT_FILE
  by_cases h : 0 ≤ v ∧ v ≤ 4
  · obtain ⟨h0, h4⟩ := h
    interval_cases v <;> decide
  · have hv : v < 0 ∨ 4 < v := by omega
    rw [if_neg (by omega), if_neg (by omega), if_neg (by omega), if_neg (by omega),
      if_neg (by omega)]
    simp [hv]

/-- C15: for every `int` `v`, `elf_st_info_name v` is "NOTYPE", "OBJECT", "FUNC",
"SECTION", "FILE" for `v` = 0, ..., 4 and the sentinel "UNKNOWN" for every other
value. -/
theorem elf_st_info_name_total (v : Int) :
    elf_st_info_name v =
        (if v = 0 then "NOTYPE" else if v = 1 then "OBJECT" else if v = 2 then "FUNC"
         else if v = 3 then "SECTION" else if v = 4 then "FILE" else "UNKNOWN") ∧
      (elf_st_info_name v = "UNKNOWN" ↔ v < 0 ∨ 4 < v) :=
  ⟨rfl, elf_st_info_name_unknown_iff v⟩

/-- C20: `elf_st_info_name` compares its whole argument with the symbol type
codes and masks nothing off: every `v` in 16..255 gives "UNKNOWN", a known label
is returned only for `v` in 0..4, and the `st_info` byte 0x12 (global `FUNC`),
whose low nibble is `STT_FUNC`, gives "UNKNOWN" while 2 gives "FUNC". -/
theorem elf_st_info_name_whole_byte (v : Int) :
    (16 ≤ v → v ≤ 255 → elf_st_info_name v = "UNKNOWN") ∧
      (elf_st_info_name v ≠ "UNKNOWN" ↔ 0 ≤ v ∧ v ≤ 4) ∧
      Int.land 0x12 15 = STT_FUNC ∧ elf_st_info_name 0x12 = "UNKNOWN" ∧
      elf_st_info_name (Int.land 0x12 15) = "FUNC" := by
  refine ⟨?_, ?_, by decide, by decide, by decide⟩
  · intro h1 _
    exact (elf_st_info_name_unknown_iff v).2 (Or.inr (by omega))
  · rw [Ne, elf_st_info_name_unknown_iff]
    omega

/-- Witness of C20: the `st_info` byte 0x21 (weak `OBJECT`). -/
theorem elf_st_info_name_whole_byte_witness : elf_st_info_name 0x21 = "UNKNOWN" :=
  (elf_st_info_name_whole_byte 0x21).1 (by decide) (by decide)

/-! ## Injectivity of the bitmask translators (claim C19) -/

theorem land_seven_eq_natCast (a : Int) : ∃ n : Nat, Int.land a 7 = (n : Int) := by
  cases a with
  | ofNat m => exact ⟨m &&& 7, rfl⟩
  | negSucc m => exact ⟨Nat.ldiff 7 m, rfl⟩

theorem testBit_seven_high (k : Nat) (hk : 3 ≤ k) : (7 : Int).testBit k = false := by
  show Nat.testBit 7 k = false
  apply Nat.testBit_eq_false_of_lt
  calc 7 < 2 ^ 3 := by decide
    _ ≤ 2 ^ k := Nat.pow_le_pow_right (by decide) hk

/-- Two masks agree after `AND 7` exactly when they agree on bits 0, 1 and 2. -/
theorem land_seven_eq_iff (a b : Int) :
    Int.land a 7 = Int.land b 7 ↔
      (a.testBit 0 = b.testBit 0 ∧ a.testBit 1 = b.testBit 1 ∧ a.testBit 2 = b.testBit 2) := by
  constructor
  · intro h
    have h0 := congrArg (fun x => Int.testBit x 0) h
    have h1 := congrArg (fun x => Int.testBit x 1) h
    have h2 := congrArg (fun x => Int.testBit x 2) h
    simp only [testBit_land_seven _ 0 (by decide), testBit_land_seven _ 1 (by decide),
      testBit_land_seven _ 2 (by decide)] at h0 h1 h2
    exact ⟨h0, h1, h2⟩
  · rintro ⟨h0, h1, h2⟩
    obtain ⟨n, hn⟩ := land_seven_eq_natCast a
    obtain ⟨m, hm⟩ := land_seven_eq_natCast b
    have hbits : ∀ k, (Int.land a 7).testBit k = (Int.land b 7).testBit k := by
      intro k
      rw [Int.testBit_land, Int.testBit_land]
      by_cases hk : k < 3
      · interval_cases k
        · rw [h0]
        · rw [h1]
        · rw [h2]
      · rw [testBit_seven_high k (by omega), Bool.and_false, Bool.and_false]
    rw [hn, hm] at hbits ⊢
    have hnm : n = m := Nat.eq_of_testBit_eq (fun k => hbits k)
    rw [hnm]

theorem p_flags_table : ∀ x0 x1 x2 y0 y1 y2 : Bool,
    ((if x0 = true then "+X" else "") ++ (if x1 = true then "+W" else "") ++
        (if x2 = true then "+R" else "") =
      (if y0 = true then "+X" else "") ++ (if y1 = true then "+W" else "") ++
        (if y2 = true then "+R" else "")) ↔ (x0 = y0 ∧ x1 = y1 ∧ x2 = y2) := by
  decide

theorem sh_flags_table : ∀ x0 x1 x2 y0 y1 y2 : Bool,
    ((if x0 = true then "+WRITE" else "") ++ (if x1 = true then "+ALLOC" else "") ++
        (if x2 = true then "+EXEC" else "") =
      (if y0 = true then "+WRITE" else "") ++ (if y1 = true then "+ALLOC" else "") ++
        (if y2 = true then "+EXEC" else "")) ↔ (x0 = y0 ∧ x1 = y1 ∧ x2 = y2) := by
  decide

theorem elf_p_flags_name_inj (a b : Int) :
    elf_p_flags_name a = elf_p_flags_name b ↔ Int.land a 7 = Int.land b 7 := by
  rw [elf_p_flags_name_eq, elf_p_flags_name_eq, land_seven_eq_iff]
  exact p_flags_table _ _ _ _ _ _

theorem elf_sh_flags_name_inj (a b : Int) :
    elf_sh_flags_name a = elf_sh_flags_name b ↔ Int.land a 7 = Int.land b 7 := by
  rw [elf_sh_flags_name_eq, elf_sh_flags_name_eq, land_seven_eq_iff]
  exact sh_flags_table _ _ _ _ _ _

/-- C19: each bitmask translator is injective on the recognised bits: for all
`int` masks `a` and `b` the two strings are equal exactly when `a AND 7` equals
`b AND 7`, for `elf_p_flags_name` and for `elf_sh_flags_name`; so the string
determines which of the three bits were set, and it is empty exactly when none is. -/
theorem flags_name_injective (a b : Int) :
    (elf_p_flags_name a = elf_p_flags_name b ↔ Int.land a 7 = Int.land b 7) ∧
      (elf_sh_flags_name a = elf_sh_flags_name b ↔ Int.land a 7 = Int.land b 7) ∧
      (elf_p_flags_name a = "" ↔ Int.land a 7 = 0) ∧
      (elf_sh_flags_name a = "" ↔ Int.land a 7 = 0) := by
  have hp0 : elf_p_flags_name 0 = "" := by decide
  have hs0 : elf_sh_flags_name 0 = "" := by decide
  have h0 : Int.land 0 7 = 0 := by decide
  refine ⟨elf_p_flags_name_inj a b, elf_sh_flags_name_inj a b, ?_, ?_⟩
  · have := elf_p_flags_name_inj a 0
    rw [hp0, h0] at this
    exact this
  · have := elf_sh_flags_name_inj a 0
    rw [hs0, h0] at this
    exact this

/-! ## Widths of the header lines (claim C17) -/

theorem pad_left_length (c : Char) (w : Nat) (s : String) :
    (pad_left c w s).length = max w s.length := by
  unfold pad_left
  rw [String.length_append, String.length_mk, List.length_replicate]
  omega

theorem hex16_length (n : Nat) (h : n < 2 ^ 64) : (hex16 n).length = 16 :=
  (hex16_sound n h).1

theorem length_ite_le (c : Prop) [Decidable c] (a b : String) (k : Nat)
    (ha : a.length ≤ k) (hb : b.length ≤ k) : (if c then a else b).length ≤ k := by
  split <;> assumption

theorem elf_sh_type_name_length (v : Int) : (elf_sh_type_name v).length ≤ 8 := by
  unfold elf_sh_type_name
  repeat' apply length_ite_le
  all_goals decide

theorem elf_p_type_name_length (v : Int) : (elf_p_type_name v).length ≤ 7 := by
  unfold elf_p_type_name
  repeat' apply length_ite_le
  all_goals decide

theorem elf_sh_flags_name_length (v : Int) : (elf_sh_flags_name v).length ≤ 17 := by
  rw [elf_sh_flags_name_eq]
  cases v.testBit 0 <;> cases v.testBit 1 <;> cases v.testBit 2 <;> decide

theorem elf_p_flags_name_length (v : Int) : (elf_p_flags_name v).length ≤ 6 := by
  rw [elf_p_flags_name_eq]
  cases v.testBit 0 <;> cases v.testBit 1 <;> cases v.testBit 2 <;> decide

theorem mod_two_pow_32_lt (n : Nat) : n % 2 ^ 32 < 2 ^ 64 :=
  Nat.lt_of_lt_of_le (Nat.mod_lt _ (by decide)) (by decide)

theorem elf_shdr_info_length (sh : Elf64_Shdr) : (elf_shdr_info sh).length = 88 := by
  have ht := elf_sh_type_name_length (to_int sh.sh_type)
  have hf := elf_sh_flags_name_length (to_int sh.sh_flags)
  have h1 : (" " : String).length = 1 := by decide
  have h3 : (" 0x" : String).length = 3 := by decide
  rw [elf_shdr_info_eq]
  unfold shdr_line_spec
  simp only [String.length_append, pad_left_length, hex16_length _ (mod_two_pow_32_lt _), h1, h3]
  omega

theorem no_newline_append {a b : String} (ha : no_newline a) (hb : no_newline b) :
    no_newline (a ++ b) := by
  intro c hc
  rw [String.data_append, List.mem_append] at hc
  rcases hc with hc | hc
  · exact ha c hc
  · exact hb c hc

theorem no_newline_pad_left (c : Char) (w : Nat) (s : String) (hc : c ≠ '\n')
    (hs : no_newline s) : no_newline (pad_left c w s) := by
  unfold pad_left
  apply no_newline_append _ hs
  intro d hd
  rw [List.eq_of_mem_replicate hd]
  exact hc

theorem digitChar_ne_newline (m : Nat) : Nat.digitChar m ≠ '\n' := by
  by_cases h : m < 16
  · interval_cases m <;> decide
  · have hm : Nat.digitChar m = '*' := by
      unfold Nat.digitChar
      repeat rw [if_neg (by omega)]
    rw [hm]; decide

theorem no_newline_toDigits (b n : Nat) : no_newline (String.mk (Nat.toDigits b n)) := by
  intro c hc
  rcases mem_toDigitsCore b _ _ _ c hc with h | ⟨m, rfl⟩
  · cases h
  · exact digitChar_ne_newline _

theorem no_newline_hex16 (n : Nat) : no_newline (hex16 n) :=
  no_newline_pad_left _ _ _ (by decide) (no_newline_toDigits 16 n)

theorem no_newline_ite (c : Prop) [Decidable c] (a b : String) (ha : no_newline a)
    (hb : no_newline b) : no_newline (if c then a else b) := by
  split <;> assumption

theorem no_newline_elf_sh_type_name (v : Int) : no_newline (elf_sh_type_name v) := by
  unfold elf_sh_type_name
  repeat' apply no_newline_ite
  all_goals (unfold no_newline; decide)

theorem no_newline_elf_sh_flags_name (v : Int) : no_newline (elf_sh_flags_name v) := by
  rw [elf_sh_flags_name_eq]
  unfold no_newline
  cases v.testBit 0 <;> cases v.testBit 1 <;> cases v.testBit 2 <;> decide

theorem no_newline_elf_shdr_info (sh : Elf64_Shdr) : no_newline (elf_shdr_info sh) := by
  have hs : no_newline " " := by unfold no_newline; decide
  have hx : no_newline " 0x" := by unfold no_newline; decide
  rw [elf_shdr_info_eq]
  unfold shdr_line_spec
  exact no_newline_append (no_newline_append (no_newline_append (no_newline_append
    (no_newline_append (no_newline_append (no_newline_append (no_newline_append
      (no_newline_pad_left _ _ _ (by decide) (no_newline_elf_sh_type_name _)) hs)
      (no_newline_pad_left _ _ _ (by decide) (no_newline_elf_sh_flags_name _))) hx)
      (no_newline_hex16 _)) hx) (no_newline_hex16 _)) hx) (no_newline_hex16 _)

/-- The program header line is 107 characters of columns, a space, and the
alignment in decimal. -/
theorem elf_phdr_info_columns (ph : Elf64_Phdr) :
    ∃ cols : String, cols.length = 107 ∧
      elf_phdr_info ph = cols ++ " " ++ Nat.repr (ph.p_align % 2 ^ 64) := by
  have ht := elf_p_type_name_length (to_int ph.p_type)
  have hf := elf_p_flags_name_length (to_int ph.p_flags)
  have h1 : (" " : String).length = 1 := by decide
  have h3 : (" 0x" : String).length = 3 := by decide
  refine ⟨pad_left ' ' 10 (elf_p_type_name (to_int ph.p_type)) ++ " " ++
      pad_left ' ' 20 (elf_p_flags_name (to_int ph.p_flags)) ++
      " 0x" ++ hex16 (ph.p_vaddr % 2 ^ 32) ++ " 0x" ++ hex16 (ph.p_paddr % 2 ^ 32) ++
      " 0x" ++ hex16 (ph.p_filesz % 2 ^ 32) ++ " 0x" ++ hex16 (ph.p_memsz % 2 ^ 32), ?_, ?_⟩
  · simp only [String.length_append, pad_left_length, hex16_length _ (mod_two_pow_32_lt _),
      h1, h3]
    omega
  · rw [elf_phdr_info_eq]
    rfl

/-- C17: for every section header `elf_shdr_info` is a line of exactly 88
characters without a newline, every section type label having at most 8
characters and every section flag string at most 17 ("+WRITE+ALLOC+EXEC"); and
for every program header `elf_phdr_info` is 107 characters of fixed columns, a
space, and the alignment in decimal, which so starts at character offset 108. -/
theorem header_lines_fixed_width (sh : Elf64_Shdr) (ph : Elf64_Phdr) (v : Int) :
    (elf_shdr_info sh).length = 88 ∧ no_newline (elf_shdr_info sh) ∧
      (elf_sh_type_name v).length ≤ 8 ∧ (elf_sh_flags_name v).length ≤ 17 ∧
      elf_sh_flags_name 7 = "+WRITE+ALLOC+EXEC" ∧
      ∃ cols : String, cols.length = 107 ∧
        elf_phdr_info ph = cols ++ " " ++ Nat.repr (ph.p_align % 2 ^ 64) :=
  ⟨elf_shdr_info_length sh, no_newline_elf_shdr_info sh, elf_sh_type_name_length v,
    elf_sh_flags_name_length v, by decide, elf_phdr_info_columns ph⟩

/-! ## Alignment of rows and column titles (claim C18) -/

/-- A number of at least `10 ^ k` is printed with more than `k` decimal digits. -/
theorem toDigitsCore_ten_length_ge : ∀ (k f n : Nat), n < f → 10 ^ k ≤ n →
    k + 1 ≤ (Nat.toDigitsCore 10 f n []).length := by
  intro k
  induction k with
  | zero =>
    intro f n hf _
    obtain ⟨g, rfl⟩ : ∃ g, f = g + 1 := ⟨f - 1, by omega⟩
    exact toDigits_length_pos 10 g n
  | succ k ih =>
    intro f n hf hn
    obtain ⟨g, rfl⟩ : ∃ g, f = g + 1 := ⟨f - 1, by omega⟩
    have hpos : 0 < 10 ^ k := Nat.pow_pos (by decide)
    have h10 : 10 ^ (k + 1) = 10 ^ k * 10 := Nat.pow_succ 10 k
    have hdiv : 10 ^ k ≤ n / 10 := by
      rw [Nat.le_div_iff_mul_le (by decide)]
      omega
    simp only [Nat.toDigitsCore]
    rw [if_neg (by omega), toDigitsCore_append]
    have := ih g (n / 10) (by omega) hdiv
    simp only [List.length_append, List.length_singleton]
    omega

theorem index_field_length_small (i : Nat) (h : i < 100) : (index_field i).length = 2 := by
  have hlen : (Nat.toDigits 10 i).length ≤ 2 :=
    Nat.toDigitsCore_length 10 (by decide) (i + 1) i 2 (by simpa using h) (by decide)
  unfold index_field
  rw [Nat.mod_eq_of_lt (by omega), pad_left_length, String.length_mk]
  omega

theorem index_field_length_large (i : Nat) (h1 : 100 ≤ i) (h2 : i < 2 ^ 64) :
    3 ≤ (index_field i).length := by
  have hlen : 2 + 1 ≤ (Nat.toDigits 10 i).length :=
    toDigitsCore_ten_length_ge 2 (i + 1) i (by omega) (by simpa using h1)
  unfold index_field
  rw [Nat.mod_eq_of_lt h2, pad_left_length, String.length_mk]
  omega

/-- C18: in the report written by `elf_print_info` (the first conjunct gives its
lines: identity, empty, section titles, section rows, empty, program titles,
program rows, empty, entry, empty) the rows line up with the column titles while
the index has two digits.  Every section row with index below 100 has 107
characters, as the section title row has; in every program row with index below
100 the decimal alignment starts at offset 127, where "Align" starts in the
program title row; both title rows begin with 19 spaces.  In every row with
index 100 or more the text before the header line is longer than 19 characters,
so every column of that row is shifted right. -/
theorem report_rows_align (elf : elf_file)
    (hs : elf.shdrs.length ≤ 2 ^ 64) (hp : elf.phdrs.length ≤ 2 ^ 64) :
    elf_print_info elf =
        unlines
          ([elf_file_info elf, "", shdr_titles] ++
            List.ofFn (fun i : Fin elf.shdrs.length =>
              "section header[" ++ index_label i.val ++ "] " ++ elf_shdr_info (elf.shdrs.get i)) ++
            ["", phdr_titles] ++
            List.ofFn (fun j : Fin elf.phdrs.length =>
              "program header[" ++ index_label j.val ++ "] " ++ elf_phdr_info (elf.phdrs.get j)) ++
            ["", "EntryAddr: 0x" ++ hex16 (elf.ehdr.e_entry % 2 ^ 64), ""]) ∧
      shdr_titles.length = 107 ∧
      (∃ t : String, t.length = 127 ∧ phdr_titles = t ++ "Align") ∧
      shdr_titles.data.take 19 = List.replicate 19 ' ' ∧
      phdr_titles.data.take 19 = List.replicate 19 ' ' ∧
      (∀ i : Fin elf.shdrs.length, i.val < 100 →
        ("section header[" ++ index_label i.val ++ "] " ++
          elf_shdr_info (elf.shdrs.get i)).length = 107) ∧
      (∀ j : Fin elf.phdrs.length, j.val < 100 →
        ∃ cols : String, cols.length = 127 ∧
          "program header[" ++ index_label j.val ++ "] " ++ elf_phdr_info (elf.phdrs.get j) =
            cols ++ Nat.repr ((elf.phdrs.get j).p_align % 2 ^ 64)) ∧
      (∀ i : Fin elf.shdrs.length, 100 ≤ i.val →
        19 < ("section header[" ++ index_label i.val ++ "] ").length) ∧
      (∀ j : Fin elf.phdrs.length, 100 ≤ j.val →
        19 < ("program header[" ++ index_label j.val ++ "] ").length) := by
  have hsec : ("section header[" : String).length = 15 := by decide
  have hprog : ("program header[" : String).length = 15 := by decide
  have hb : ("] " : String).length = 2 := by decide
  have h1 : (" " : String).length = 1 := by decide
  have his : ∀ i : Fin elf.shdrs.length, index_field i.val = index_label i.val :=
    fun i => index_field_eq_index_label i.val (by have := i.isLt; omega)
  have hip : ∀ j : Fin elf.phdrs.length, index_field j.val = index_label j.val :=
    fun j => index_field_eq_index_label j.val (by have := j.isLt; omega)
  refine ⟨?_, by decide, ?_, by decide, by decide, ?_, ?_, ?_, ?_⟩
  · rw [elf_print_info_lines]
    have hsrow : (fun i : Fin elf.shdrs.length =>
          "section header[" ++ index_field i.val ++ "] " ++ elf_shdr_info (elf.shdrs.get i)) =
        (fun i : Fin elf.shdrs.length =>
          "section header[" ++ index_label i.val ++ "] " ++ elf_shdr_info (elf.shdrs.get i)) := by
      funext i
      rw [his i]
    have hprow : (fun j : Fin elf.phdrs.length =>
          "program header[" ++ index_field j.val ++ "] " ++ elf_phdr_info (elf.phdrs.get j)) =
        (fun j : Fin elf.phdrs.length =>
          "program header[" ++ index_label j.val ++ "] " ++ elf_phdr_info (elf.phdrs.get j)) := by
      funext j
      rw [hip j]
    rw [hsrow, hprow]
  · exact ⟨"                         Type                Flags           VirtAddr           PhysAddr           FileSize            MemSize ",
      by decide, by decide⟩
  · intro i hi
    have hidx := index_field_length_small i.val hi
    rw [his i] at hidx
    simp only [String.length_append, hsec, hb, hidx, elf_shdr_info_length]
  · intro j hj
    have hidx := index_field_length_small j.val hj
    rw [hip j] at hidx
    obtain ⟨cols, hcols, hline⟩ := elf_phdr_info_columns (elf.phdrs.get j)
    refine ⟨"program header[" ++ index_label j.val ++ "] " ++ cols ++ " ", ?_, ?_⟩
    · simp only [String.length_append, hprog, hb, hidx, hcols, h1]
    · rw [hline]
      simp only [String.append_assoc]
  · intro i hi
    have hidx := index_field_length_large i.val hi (by have := i.isLt; omega)
    rw [his i] at hidx
    simp only [String.length_append, hsec, hb]
    omega
  · intro j hj
    have hidx := index_field_length_large j.val hj (by have := j.isLt; omega)
    rw [hip j] at hidx
    simp only [String.length_append, hprog, hb]
    omega

/-- Witness of C18: a file with 101 section headers and one program header; the
section row of index 7 has 107 characters, the alignment of the program row of
index 0 starts at offset 127, and the row of index 100 starts its header line
after more than 19 characters. -/
theorem report_rows_align_witness :
    ("section header[" ++ index_label 7 ++ "] " ++
        elf_shdr_info ⟨1, 6, 0x1000, 0x78, 0x200⟩).length = 107 ∧
      (∃ cols : String, cols.length = 127 ∧
        "program header[" ++ index_label 0 ++ "] " ++
            elf_phdr_info ⟨1, 5, 0x1000, 0x1000, 0x200, 0x200, 0x1000⟩ =
          cols ++ Nat.repr (0x1000 % 2 ^ 64)) ∧
      19 < ("section header[" ++ index_label 100 ++ "] ").length :=
  have h := report_rows_align
    ⟨"a.out", 2, 1, ⟨2, 243, 0x10000⟩, List.replicate 101 ⟨1, 6, 0x1000, 0x78, 0x200⟩,
      [⟨1, 5, 0x1000, 0x1000, 0x200, 0x200, 0x1000⟩]⟩ (by decide) (by decide)
  ⟨h.2.2.2.2.2.1 ⟨7, by decide⟩ (by decide),
   h.2.2.2.2.2.2.1 ⟨0, by decide⟩ (by decide),
   h.2.2.2.2.2.2.2.1 ⟨100, by decide⟩ (by decide)⟩

/-! ## Repeated calls of the report driver (claim C16) -/

theorem print_shdrs_run_eq : ∀ (fuel i : Nat) (w : Process),
    print_shdrs_run fuel i w = ⟨w.elf, w.out ++ print_shdrs w.elf.shdrs fuel i⟩ := by
  intro fuel
  induction fuel with
  | zero =>
    intro i w
    simp only [print_shdrs_run, print_shdrs, String.append_empty]
  | succ fuel ih =>
    intro i w
    simp only [print_shdrs_run, print_shdrs]
    by_cases h : i < w.elf.shdrs.length
    · rw [dif_pos h, dif_pos h, ih]
      simp only [emit, String.append_assoc]
    · rw [dif_neg h, dif_neg h, String.append_empty]

theorem print_phdrs_run_eq : ∀ (fuel i : Nat) (w : Process),
    print_phdrs_run fuel i w = ⟨w.elf, w.out ++ print_phdrs w.elf.phdrs fuel i⟩ := by
  intro fuel
  induction fuel with
  | zero =>
    intro i w
    simp only [print_phdrs_run, print_phdrs, String.append_empty]
  | succ fuel ih =>
    intro i w
    simp only [print_phdrs_run, print_phdrs]
    by_cases h : i < w.elf.phdrs.length
    · rw [dif_pos h, dif_pos h, ih]
      simp only [emit, String.append_assoc]
    · rw [dif_neg h, dif_neg h, String.append_empty]

/-- A call of the driver leaves the parsed file as it was and appends to standard
output the text `elf_print_info` of that file. -/
theorem elf_print_info_run_eq (w : Process) :
    elf_print_info_run w = ⟨w.elf, w.out ++ elf_print_info w.elf⟩ := by
  unfold elf_print_info_run elf_print_info
  simp only [print_shdrs_run_eq, print_phdrs_run_eq, emit, String.append_assoc]

/-- C16: calling `elf_print_info` twice on the same parsed file writes the same
text both times: a call leaves the parsed file (file name, class, byte order,
file header, section headers, program headers) unchanged, and the text it appends
to standard output is determined by the parsed file alone, whatever was written
before. -/
theorem elf_print_info_twice (elf : elf_file) (before : String) :
    (elf_print_info_run ⟨elf, before⟩).elf = elf ∧
      (elf_print_info_run ⟨elf, before⟩).out = before ++ elf_print_info elf ∧
      (elf_print_info_run (elf_print_info_run ⟨elf, before⟩)).elf = elf ∧
      (elf_print_info_run (elf_print_info_run ⟨elf, before⟩)).out =
        before ++ elf_print_info elf ++ elf_print_info elf := by
  simp only [elf_print_info_run_eq, and_self]

end Rv8Elf
